import Mathlib

/-!
Verification development for the two core subsystems of the repository:

* `services/listen_dnsport.c` — the listening front-end (socket-set
  construction for UDP, UDP-with-ancillary and TCP-accept sockets, the
  pushback/resume control, and the failure policy of
  `listening_ports_open`).
* `services/mesh.h` — the query mesh of in-flight resolution states.
  Only the header (declarations plus documented contracts) is present in
  the source tree; the mesh operations are therefore modelled from the
  specification text, following the documented contracts of the header
  where they constrain behaviour.

The listener functions are embedded shallowly: every system call
(`socket`, `setsockopt`, `bind`, `listen`, `fcntl`, `getaddrinfo`,
`malloc`) is resolved by an environment value (`AttemptEnv`) consumed
one record per socket-creation attempt, and the kernel-side effects that
matter to the claims (which descriptors are open, which addresses were
bound, what was logged) are threaded through an explicit state
(`Sys`).  The platform is the POSIX build of the source: `INET6`,
`IPV6_V6ONLY`, `IPV6_USE_MIN_MTU`, `SO_REUSEADDR`, `EADDRINUSE`,
`IPV6_RECVPKTINFO` and `IP_RECVDSTADDR` defined, `USE_WINSOCK` not
defined.  Control flow follows the C text line by line; in particular
the error paths that return without `close()` in the source also leave
the descriptor in `openFds` here.
-/

/-- The `enum listen_type` of `listen_dnsport.h`: how a listening file
descriptor is to be used. -/
inductive LType where
  | udp
  | udpancil
  | tcp
deriving DecidableEq

/-- `struct listen_port`: one open listening descriptor with its type.
The C list is singly linked with insertion at the head; it is modelled
as a `List` with the same head-insertion. -/
structure ListenPort where
  fd : Nat
  ftype : LType
deriving DecidableEq

/-- Address family of a socket attempt (`AF_INET` / `AF_INET6`). -/
inductive Family where
  | inet
  | inet6
deriving DecidableEq

/-- Socket type (`SOCK_DGRAM` / `SOCK_STREAM`). -/
inductive SType where
  | dgram
  | stream
deriving DecidableEq

/-- The `errno` classes distinguished by `create_udp_sock` and
`create_tcp_accept_sock` after a failed `socket()` call. -/
inductive SockErrno where
  | eafnosupport
  | eprotonosupport
  | otherSockErr
deriving DecidableEq

/-- The `errno` classes distinguished after a failed `bind()` call. -/
inductive BindErrno where
  | eaddrinuse
  | einval
  | otherBindErr
deriving DecidableEq

/-- Outcomes of the system calls made during one socket-creation attempt
(one `make_sock` call together with the `set_recvpktinfo` and
`port_insert` steps that follow it inside `ports_create_if`).  A field
is only consulted when the corresponding call is reached. -/
structure AttemptEnv where
  gaiOk : Bool
  sockErr : Option SockErrno
  v6onlyOk : Bool
  minMtuOk : Bool
  reuseAddrOk : Bool
  bindErr : Option BindErrno
  nonblockOk : Bool
  listenOk : Bool
  pktinfoOk : Bool
  mallocOk : Bool
deriving DecidableEq

/-- The all-successful attempt environment. -/
def AttemptEnv.allOk : AttemptEnv :=
  ⟨true, none, true, true, true, none, true, true, true, true⟩

/-- Kernel-visible state threaded through the embedding: the next fresh
descriptor number, the set of currently open descriptors, the
successfully bound addresses, and the emitted warnings and errors. -/
structure Sys where
  nextFd : Nat
  openFds : List Nat
  binds : List (String × Family × SType)
  warns : List String
  errs : List String
deriving DecidableEq

/-- Initial kernel state: nothing open, nothing logged. -/
def Sys.start : Sys := ⟨0, [], [], [], []⟩

/-- `socket()` success: allocates the next descriptor. -/
def sysSocket (st : Sys) : Nat × Sys :=
  (st.nextFd,
    { st with nextFd := st.nextFd + 1, openFds := st.nextFd :: st.openFds })

/-- `close()`: removes the descriptor from the open set. -/
def sysClose (fd : Nat) (st : Sys) : Sys :=
  { st with openFds := st.openFds.filter (fun x => decide (x ≠ fd)) }

/-- Record a successful `bind()` of the given address. -/
def sysBind (name : String) (family : Family) (stype : SType) (st : Sys) : Sys :=
  { st with binds := st.binds ++ [(name, family, stype)] }

/-- `log_warn`. -/
def logWarn (msg : String) (st : Sys) : Sys :=
  { st with warns := st.warns ++ [msg] }

/-- `log_err`. -/
def logErr (msg : String) (st : Sys) : Sys :=
  { st with errs := st.errs ++ [msg] }

/-- Result record of `create_udp_sock`: the descriptor on success, and
the `*inuse` / `*noproto` out-parameters. On the success path the C
leaves the out-parameters uninitialised and the caller never reads
them; they are returned as `false` here. -/
structure UdpSockRes where
  sock : Option Nat
  inuse : Bool
  noproto : Bool
  st : Sys
deriving DecidableEq

/-- `create_udp_sock` of `listen_dnsport.c`: `socket()`, for `AF_INET6`
the `IPV6_V6ONLY` and `IPV6_USE_MIN_MTU` socket options, `bind()`, and
`fd_set_nonblock`.  Every failure path mirrors the C text, including
which paths `close()` the descriptor and which `errno` values set
`*inuse` and `*noproto`. -/
def create_udp_sock (family : Family) (bindName : String) (v6only : Nat)
    (env : AttemptEnv) (st : Sys) : UdpSockRes :=
  match env.sockErr with
  | some SockErrno.eafnosupport => ⟨none, false, true, st⟩
  | some SockErrno.eprotonosupport => ⟨none, false, true, st⟩
  | some SockErrno.otherSockErr =>
      ⟨none, false, false, logErr "cant create socket" st⟩
  | none =>
    let p := sysSocket st
    let s := p.1
    let st1 := p.2
    if family = Family.inet6 ∧ v6only ≠ 0 ∧ env.v6onlyOk = false then
      ⟨none, false, false, sysClose s (logErr "setsockopt v6only failed" st1)⟩
    else if family = Family.inet6 ∧ env.minMtuOk = false then
      ⟨none, false, false, sysClose s (logErr "setsockopt min mtu failed" st1)⟩
    else
      match env.bindErr with
      | some BindErrno.eaddrinuse => ⟨none, true, false, sysClose s st1⟩
      | some BindErrno.einval =>
        if family = Family.inet6 then ⟨none, false, true, sysClose s st1⟩
        else ⟨none, false, false, sysClose s (logErr "cant bind socket" st1)⟩
      | some BindErrno.otherBindErr =>
        ⟨none, false, false, sysClose s (logErr "cant bind socket" st1)⟩
      | none =>
        let st2 := sysBind bindName family SType.dgram st1
        if env.nonblockOk then ⟨some s, false, false, st2⟩
        else ⟨none, false, false, sysClose s st2⟩

/-- Result record of `create_tcp_accept_sock`. -/
structure TcpSockRes where
  sock : Option Nat
  noproto : Bool
  st : Sys
deriving DecidableEq

/-- `create_tcp_accept_sock` of `listen_dnsport.c`: `socket()`,
`SO_REUSEADDR`, for `AF_INET6` the `IPV6_V6ONLY` option, `bind()`,
`fd_set_nonblock`, `listen()`.  As in the C source, none of the failure
paths after a successful `socket()` close the descriptor. -/
def create_tcp_accept_sock (family : Family) (bindName : String) (v6only : Nat)
    (env : AttemptEnv) (st : Sys) : TcpSockRes :=
  match env.sockErr with
  | some SockErrno.eafnosupport => ⟨none, true, st⟩
  | some SockErrno.eprotonosupport => ⟨none, true, st⟩
  | some SockErrno.otherSockErr => ⟨none, false, logErr "cant create socket" st⟩
  | none =>
    let p := sysSocket st
    let s := p.1
    let st1 := p.2
    if env.reuseAddrOk = false then
      ⟨none, false, logErr "setsockopt reuseaddr failed" st1⟩
    else if family = Family.inet6 ∧ v6only ≠ 0 ∧ env.v6onlyOk = false then
      ⟨none, false, logErr "setsockopt v6only failed" st1⟩
    else
      match env.bindErr with
      | some BindErrno.einval =>
        if family = Family.inet6 then ⟨none, true, st1⟩
        else ⟨none, false, logErr "cant bind socket" st1⟩
      | some BindErrno.eaddrinuse => ⟨none, false, logErr "cant bind socket" st1⟩
      | some BindErrno.otherBindErr => ⟨none, false, logErr "cant bind socket" st1⟩
      | none =>
        let st2 := sysBind bindName family SType.stream st1
        if env.nonblockOk = false then ⟨none, false, st2⟩
        else if env.listenOk = false then ⟨none, false, logErr "cant listen" st2⟩
        else ⟨some s, false, st2⟩

/-- Result record of `make_sock`: descriptor and the `*noip6`
out-parameter. -/
structure MakeSockRes where
  sock : Option Nat
  noip6 : Bool
  st : Sys
deriving DecidableEq

/-- `make_sock` of `listen_dnsport.c`: `getaddrinfo` on the interface
literal, then either `create_udp_sock` or `create_tcp_accept_sock`
(both with `v6only = 1`), classifying the failure into `*noip6` when
the hint family was `AF_INET6` and the callee reported `noproto`. -/
def make_sock (stype : SType) (ifname : String) (family : Family)
    (env : AttemptEnv) (st : Sys) : MakeSockRes :=
  if env.gaiOk = false then
    ⟨none, false, logErr "getaddrinfo failed" st⟩
  else
    match stype with
    | SType.dgram =>
      let r := create_udp_sock family ifname 1 env st
      match r.sock with
      | some s => ⟨some s, false, r.st⟩
      | none =>
        if r.inuse then
          ⟨none, false, logErr "bind address already in use" r.st⟩
        else if r.noproto ∧ family = Family.inet6 then ⟨none, true, r.st⟩
        else ⟨none, false, r.st⟩
    | SType.stream =>
      let r := create_tcp_accept_sock family ifname 1 env st
      match r.sock with
      | some s => ⟨some s, false, r.st⟩
      | none =>
        if r.noproto ∧ family = Family.inet6 then ⟨none, true, r.st⟩
        else ⟨none, false, r.st⟩

/-- `port_insert`: `malloc` a `listen_port` and push it on the list;
on allocation failure the list is unchanged. -/
def port_insert (list : List ListenPort) (s : Nat) (ftype : LType)
    (ok : Bool) : Option (List ListenPort) :=
  if ok then some ({ fd := s, ftype := ftype } :: list) else none

/-- Take the next attempt environment from the stream, defaulting to
the all-successful one when the stream is exhausted. -/
def nextEnv (envs : List AttemptEnv) : AttemptEnv × List AttemptEnv :=
  match envs with
  | [] => (AttemptEnv.allOk, [])
  | e :: rest => (e, rest)

/-- Result record of `ports_create_if`. -/
structure PortsIfRes where
  ok : Bool
  list : List ListenPort
  st : Sys
  envs : List AttemptEnv
deriving DecidableEq

/-- The `if(do_tcp)` tail of `ports_create_if`: `make_sock` with
`SOCK_STREAM`; a demoted IPv6 failure returns success with the warning
suppressed in the source (it is commented out there). -/
def ports_if_tcp (ifname : String) (family : Family) (doTcp : Bool)
    (envs : List AttemptEnv) (list : List ListenPort) (st : Sys) : PortsIfRes :=
  if doTcp = false then ⟨true, list, st, envs⟩
  else
    let p := nextEnv envs
    let env := p.1
    let envs2 := p.2
    let r := make_sock SType.stream ifname family env st
    match r.sock with
    | none =>
      if r.noip6 then ⟨true, list, r.st, envs2⟩ else ⟨false, list, r.st, envs2⟩
    | some s =>
      match port_insert list s LType.tcp env.mallocOk with
      | some list2 => ⟨true, list2, r.st, envs2⟩
      | none => ⟨false, list, sysClose s r.st, envs2⟩

/-- `ports_create_if` of `listen_dnsport.c`.  With `do_auto` the UDP
socket is tagged `listen_type_udpancil` and `set_recvpktinfo` is
applied to it; as in the source, a `set_recvpktinfo` failure returns
failure without closing the descriptor, while a `port_insert` failure
closes it.  A demoted IPv6 failure (`noip6`) warns and returns success
immediately, skipping the TCP attempt of the same interface. -/
def ports_create_if (ifname : String) (family : Family)
    (doAuto doUdp doTcp : Bool) (envs : List AttemptEnv)
    (list : List ListenPort) (st : Sys) : PortsIfRes :=
  if doUdp = false ∧ doTcp = false then ⟨false, list, st, envs⟩
  else if doAuto then
    let p := nextEnv envs
    let env := p.1
    let envs2 := p.2
    let r := make_sock SType.dgram ifname family env st
    match r.sock with
    | none =>
      if r.noip6 then ⟨true, list, logWarn "IPv6 protocol not available" r.st, envs2⟩
      else ⟨false, list, r.st, envs2⟩
    | some s =>
      if env.pktinfoOk = false then
        ⟨false, list, logErr "setsockopt pktinfo failed" r.st, envs2⟩
      else
        match port_insert list s LType.udpancil env.mallocOk with
        | none => ⟨false, list, sysClose s r.st, envs2⟩
        | some list2 => ports_if_tcp ifname family doTcp envs2 list2 r.st
  else if doUdp then
    let p := nextEnv envs
    let env := p.1
    let envs2 := p.2
    let r := make_sock SType.dgram ifname family env st
    match r.sock with
    | none =>
      if r.noip6 then ⟨true, list, logWarn "IPv6 protocol not available" r.st, envs2⟩
      else ⟨false, list, r.st, envs2⟩
    | some s =>
      match port_insert list s LType.udp env.mallocOk with
      | none => ⟨false, list, sysClose s r.st, envs2⟩
      | some list2 => ports_if_tcp ifname family doTcp envs2 list2 r.st
  else ports_if_tcp ifname family doTcp envs list st

/-- `listening_ports_free`: close every descriptor on the list and free
the nodes. -/
def listening_ports_free (list : List ListenPort) (st : Sys) : Sys :=
  match list with
  | [] => st
  | p :: rest => listening_ports_free rest (sysClose p.fd st)

/-- `struct config_file`, restricted to the fields `listening_ports_open`
reads.  Each interface literal carries the boolean that `str_is_ip6`
(an external helper, classifying the literal as an IPv6 address) returns
for it. -/
structure ConfigFile where
  port : Nat
  do_ip4 : Bool
  do_ip6 : Bool
  do_udp : Bool
  do_tcp : Bool
  if_automatic : Bool
  incoming_num_tcp : Nat
  ifs : List (String × Bool)
deriving DecidableEq

/-- The warning text of `listening_ports_open` when `if_automatic` is
disabled for lack of both address families. -/
def autoWarnMsg : String :=
  "interface_automatic option does not work when either do-ip4 or do-ip6 is not enabled"

/-- The `for(i=0; i<cfg->num_ifs; i++)` loop of `listening_ports_open`:
each configured interface is classified by `str_is_ip6` and skipped
with `continue` when its family is disabled. -/
def lpo_ifs (ifs : List (String × Bool)) (do_ip4 do_ip6 do_udp do_tcp : Bool)
    (envs : List AttemptEnv) (list : List ListenPort) (st : Sys) :
    Option (List ListenPort) × Sys :=
  match ifs with
  | [] => (some list, st)
  | (name, isIp6) :: rest =>
    if isIp6 then
      if do_ip6 = false then lpo_ifs rest do_ip4 do_ip6 do_udp do_tcp envs list st
      else
        let r := ports_create_if name Family.inet6 false do_udp do_tcp envs list st
        if r.ok then lpo_ifs rest do_ip4 do_ip6 do_udp do_tcp r.envs r.list r.st
        else (none, listening_ports_free r.list r.st)
    else
      if do_ip4 = false then lpo_ifs rest do_ip4 do_ip6 do_udp do_tcp envs list st
      else
        let r := ports_create_if name Family.inet false do_udp do_tcp envs list st
        if r.ok then lpo_ifs rest do_ip4 do_ip6 do_udp do_tcp r.envs r.list r.st
        else (none, listening_ports_free r.list r.st)

/-- Result of `listening_ports_open`: `none` models the NULL return
("no listener"), together with the final kernel state. -/
structure OpenRes where
  result : Option (List ListenPort)
  st : Sys
deriving DecidableEq

/-- The `do_auto || cfg->num_ifs == 0` branch of `listening_ports_open`:
create the IPv6 and then the IPv4 default (or wildcard) ports. -/
def lpo_defaults (do_auto u t ip4 ip6 : Bool) (envs : List AttemptEnv)
    (st0 : Sys) : OpenRes :=
  if ip6 then
    let r6 := ports_create_if (if do_auto then "::0" else "::1")
      Family.inet6 do_auto u t envs [] st0
    if r6.ok = false then ⟨none, listening_ports_free r6.list r6.st⟩
    else
      if ip4 then
        let r4 := ports_create_if (if do_auto then "0.0.0.0" else "127.0.0.1")
          Family.inet do_auto u t r6.envs r6.list r6.st
        if r4.ok = false then ⟨none, listening_ports_free r4.list r4.st⟩
        else ⟨some r4.list, r4.st⟩
      else ⟨some r6.list, r6.st⟩
  else
    if ip4 then
      let r4 := ports_create_if (if do_auto then "0.0.0.0" else "127.0.0.1")
        Family.inet do_auto u t envs [] st0
      if r4.ok = false then ⟨none, listening_ports_free r4.list r4.st⟩
      else ⟨some r4.list, r4.st⟩
    else ⟨some [], st0⟩

/-- `listening_ports_open` of `listen_dnsport.c`.  `do_auto` is
`cfg->if_automatic && cfg->do_udp`; `incoming_num_tcp == 0` forces TCP
off; `if_automatic` without both families is disabled with a warning;
with no interfaces (or with `do_auto`) the defaults `::1`/`127.0.0.1`
(wildcards `::0`/`0.0.0.0` under `do_auto`) are used, otherwise the
configured interfaces. -/
def listening_ports_open (cfg : ConfigFile) (envs : List AttemptEnv)
    (st : Sys) : OpenRes :=
  let do_ip4 := cfg.do_ip4
  let do_ip6 := cfg.do_ip6
  let do_auto0 := cfg.if_automatic && cfg.do_udp
  let do_tcp := if cfg.incoming_num_tcp = 0 then false else cfg.do_tcp
  if do_ip4 = false ∧ do_ip6 = false then ⟨none, st⟩
  else
    let q : Bool × Sys :=
      if do_auto0 = true ∧ (do_ip4 = false ∨ do_ip6 = false) then
        (false, logWarn autoWarnMsg st)
      else (do_auto0, st)
    let do_auto := q.1
    let st0 := q.2
    if do_auto = true ∨ cfg.ifs.length = 0 then
      lpo_defaults do_auto cfg.do_udp do_tcp do_ip4 do_ip6 envs st0
    else
      let pr := lpo_ifs cfg.ifs do_ip4 do_ip6 cfg.do_udp do_tcp envs [] st0
      ⟨pr.1, pr.2⟩

/-- Comm point types from `util/netevent.h` that occur in the listener:
`comm_udp` (also used by the ancillary-data UDP points), `comm_tcp_accept`
for listening TCP sockets, and `comm_tcp` for accepted per-connection
points. -/
inductive CommType where
  | comm_udp
  | comm_tcp_accept
  | comm_tcp
deriving DecidableEq

/-- One `struct comm_point`, restricted to the fields the listener
claims touch: its descriptor, its type, whether it is currently
listening for events, and the `do_not_close` flag `listen_create`
sets. -/
structure CommPoint where
  fd : Nat
  ctype : CommType
  listening : Bool
  do_not_close : Bool
deriving DecidableEq

/-- `comm_point_stop_listening`. -/
def comm_point_stop_listening (c : CommPoint) : CommPoint :=
  { c with listening := false }

/-- `comm_point_start_listening` (the `-1, -1` timeout arguments of the
C call carry no information for these claims). -/
def comm_point_start_listening (c : CommPoint) : CommPoint :=
  { c with listening := true }

/-- `listen_pushback` of `listen_dnsport.c`: walk the comm point list
and stop listening on every point whose type is `comm_udp` or
`comm_tcp_accept`, skipping all others with `continue`. -/
def listen_pushback (cps : List CommPoint) : List CommPoint :=
  cps.map (fun c =>
    if c.ctype ≠ CommType.comm_udp ∧ c.ctype ≠ CommType.comm_tcp_accept then c
    else comm_point_stop_listening c)

/-- `listen_resume` of `listen_dnsport.c`: walk the comm point list and
start listening on every point whose type is `comm_udp` or
`comm_tcp_accept`, skipping all others with `continue`. -/
def listen_resume (cps : List CommPoint) : List CommPoint :=
  cps.map (fun c =>
    if c.ctype ≠ CommType.comm_udp ∧ c.ctype ≠ CommType.comm_tcp_accept then c
    else comm_point_start_listening c)

/-!
The query mesh.  `services/mesh.h` declares the mesh data structures
with their counter semantics and documents the contract of every
operation, but the implementation file is not part of the source tree.
The operations below are therefore modelled from the specification
(sections 4.3.1-4.3.8) and from the documented contracts in
`services/mesh.h`; each definition's doc comment names its origin.
Ordered rbtree sets are modelled as duplicate-free lists whose order is
the iteration order; allocation is modelled as always succeeding (the
spec recovers from allocation failure by leaving the mesh unchanged,
which preserves every property proved below).
-/

/-- The key of a mesh state: qname, qtype, qclass, the RD and CD flags
of the query, and whether it is a priming query (`mesh.h`: unique per
qname, qtype, qclass, RD/CD flag, and priming). -/
structure QKey where
  qname : Nat
  qtype : Nat
  qclass : Nat
  rd : Bool
  cd : Bool
  prime : Bool
deriving DecidableEq

/-- `struct mesh_reply`, restricted to the fields the claims use. -/
structure MeshReply where
  qid : Nat
  qflags : Nat
deriving DecidableEq

/-- Module events of the pipeline contract (spec section 4.2): `NEW`,
`PASS`, `REPLY`, `CAPSFAIL`, `MODDONE`. -/
inductive ModuleEv where
  | module_event_new
  | module_event_pass
  | module_event_reply
  | module_event_capsfail
  | module_event_moddone
deriving DecidableEq

/-- `struct mesh_state`: the key, the client reply list, and the
super-set and sub-set of dependency references (`mesh.h` lines
104-122).  The rbtree sets are duplicate-free lists in iteration
order. -/
structure MState where
  key : QKey
  replyList : List MeshReply
  superSet : List QKey
  subSet : List QKey
deriving DecidableEq

/-- `struct mesh_area`: the `all` tree of current queries, the runnable
set, and the counters documented at `mesh.h` lines 76-92. -/
structure MeshArea where
  all : List MState
  run : List QKey
  num_reply_addrs : Nat
  num_reply_states : Nat
  num_detached_states : Nat
  replies_sent : Nat
deriving DecidableEq

/-- `mesh_create`: the empty mesh. -/
def mesh_create : MeshArea := ⟨[], [], 0, 0, 0, 0⟩

/-- Insertion into an ordered set modelled as a list: a no-op on a
present key (rbtree insert of a duplicate key fails and the set is
unchanged), appending in iteration order otherwise. -/
def setInsert (k : QKey) (l : List QKey) : List QKey :=
  if k ∈ l then l else l ++ [k]

/-- `mesh_area_find` (`mesh.h` lines 306-307): look up the state with
the given key in the `all` tree. -/
def mesh_area_find (m : MeshArea) (k : QKey) : Option MState :=
  m.all.find? (fun s => decide (s.key = k))

/-- Update the state with the given key in a state list, leaving every
other state unchanged. -/
def updAt (k : QKey) (f : MState → MState) (l : List MState) : List MState :=
  l.map (fun s => if s.key = k then f s else s)

/-- A state is detached iff it has no client replies and an empty
super-set (`mesh.h` lines 82-85, spec section 3). -/
def isDetachedSt (s : MState) : Bool :=
  s.replyList.isEmpty && s.superSet.isEmpty

/-- The number of detached states in a state list. -/
def countDetached (l : List MState) : Nat :=
  (l.filter (fun s => isDetachedSt s)).length

/-- The number of states that have at least one client reply. -/
def countReplySt (l : List MState) : Nat :=
  (l.filter (fun s => !s.replyList.isEmpty)).length

/-- The total number of client replies over a state list. -/
def sumReplies (l : List MState) : Nat :=
  (l.map (fun s => s.replyList.length)).sum

/-- The sub-edge successors of a key: the sub-set of its state, empty
when the key has no state. -/
def succOf (m : MeshArea) (k : QKey) : List QKey :=
  match mesh_area_find m k with
  | some s => s.subSet
  | none => []

/-- One expansion step of sub-reachability: add every sub of every
member. -/
def reachStep (m : MeshArea) (S : Finset QKey) : Finset QKey :=
  S ∪ S.biUnion (fun k => (succOf m k).toFinset)

/-- Modelled from the spec (section 4.3.8): the set of keys reachable
from `k` through sub-edges, computed as a bounded closure (the walk is
bounded by the size of `all`). -/
def reachSet (m : MeshArea) (k : QKey) : Finset QKey :=
  (fun S => reachStep m S)^[m.all.length] {k}

/-- Modelled from the spec: `mesh_detect_cycle` (`mesh.h` lines
369-370) — true iff the dependency key exists and the querying state is
reachable from it through sub-edges (the state itself included), so
that adding the edge would create a cycle. -/
def mesh_detect_cycle (m : MeshArea) (p : QKey) (k : QKey) : Bool :=
  (mesh_area_find m k).isSome && decide (p ∈ reachSet m k)

/-- `mesh_state_create` (`mesh.h` lines 286-287): a fresh state with no
replies and no edges. -/
def mesh_state_create (k : QKey) : MState := ⟨k, [], [], []⟩

/-- `mesh_state_attachment` (`mesh.h` lines 309-317): insert the mutual
edges `sub ∈ super.sub_set` and `super ∈ sub.super_set`.  Stat items
are not updated here. -/
def mesh_state_attachment (m : MeshArea) (p k : QKey) : MeshArea :=
  let l1 := updAt p (fun t => { t with subSet := setInsert k t.subSet }) m.all
  let l2 := updAt k (fun t => { t with superSet := setInsert p t.superSet }) l1
  { m with all := l2 }

/-- Result of `mesh_attach_sub`: a refused cycle, a missing parent
state (the C caller always passes an existing state), or success with
the `*newq` out-parameter (the new sub-state when one was created,
`NULL` when the sub-state already existed). -/
inductive AttachOut where
  | cycleRefused
  | noParent
  | attached (newq : Option QKey)
deriving DecidableEq

/-- Modelled from the spec (section 4.3.2) and the contract of
`mesh_attach_sub` (`mesh.h` lines 212-234): refuse on a detected
cycle; otherwise find or create the sub-state (`*newq` is the new
state, or `NULL` when it already existed); insert the mutual edges
idempotently; and decrement `num_detached_states` when the sub, a
candidate root until now, gains a super. -/
def mesh_attach_sub (m : MeshArea) (p k : QKey) : AttachOut × MeshArea :=
  if (mesh_area_find m p).isNone then (AttachOut.noParent, m)
  else if mesh_detect_cycle m p k then (AttachOut.cycleRefused, m)
  else
    match mesh_area_find m k with
    | some sub =>
      let wasDetached := sub.replyList.isEmpty && sub.superSet.isEmpty
      let m2 := mesh_state_attachment m p k
      if wasDetached then
        (AttachOut.attached none,
          { m2 with num_detached_states := m2.num_detached_states - 1 })
      else (AttachOut.attached none, m2)
    | none =>
      let m1 := { m with all := m.all ++ [mesh_state_create k],
                         num_detached_states := m.num_detached_states + 1 }
      let m2 := mesh_state_attachment m1 p k
      (AttachOut.attached (some k),
        { m2 with num_detached_states := m2.num_detached_states - 1 })

/-- Remove the edge `parent ∈ x.super_set`; when `x` thereby loses its
last super and has no client replies it becomes detached and the
counter is updated (spec section 4.3.3). -/
def removeSuperEdge (m : MeshArea) (parent x : QKey) : MeshArea :=
  match mesh_area_find m x with
  | none => m
  | some xs =>
    let newSuper := xs.superSet.filter (fun q => decide (q ≠ parent))
    let becameDetached :=
      decide (parent ∈ xs.superSet) && newSuper.isEmpty && xs.replyList.isEmpty
    { m with
      all := updAt x (fun t => { t with superSet := newSuper }) m.all,
      num_detached_states :=
        if becameDetached then m.num_detached_states + 1
        else m.num_detached_states }

/-- Modelled from the spec (section 4.3.3) and the contract of
`mesh_detach_subs` (`mesh.h` lines 210): for each sub of the state,
remove the super-reference back to the state (updating the detached
counter when the sub becomes a root), then clear the state's own
sub-set. -/
def mesh_detach_subs (m : MeshArea) (k : QKey) : MeshArea :=
  match mesh_area_find m k with
  | none => m
  | some s =>
    let m1 := s.subSet.foldl (fun acc x => removeSuperEdge acc k x) m
    { m1 with all := updAt k (fun t => { t with subSet := [] }) m1.all }

/-- Modelled from the spec (section 4.3.1) and the contract of
`mesh_new_client` (`mesh.h` lines 184-186): append a reply to the
existing state for the key, or create a new state carrying the reply
and schedule it.  The counters follow the documented counts of
`mesh_area` (`mesh.h` lines 76-85). -/
def mesh_new_client (m : MeshArea) (q : QKey) (r : MeshReply) : MeshArea :=
  match mesh_area_find m q with
  | some s =>
    let wasNoReply := s.replyList.isEmpty
    let wasDetached := s.replyList.isEmpty && s.superSet.isEmpty
    { m with
      all := updAt q (fun t => { t with replyList := t.replyList ++ [r] }) m.all,
      num_reply_addrs := m.num_reply_addrs + 1,
      num_reply_states :=
        if wasNoReply then m.num_reply_states + 1 else m.num_reply_states,
      num_detached_states :=
        if wasDetached then m.num_detached_states - 1
        else m.num_detached_states }
  | none =>
    let st := { mesh_state_create q with replyList := [r] }
    { m with all := m.all ++ [st],
             run := setInsert q m.run,
             num_reply_addrs := m.num_reply_addrs + 1,
             num_reply_states := m.num_reply_states + 1 }

/-- Delete the state from `all` and `run`, draining its reply list
(spec section 4.3.4: every pending reply is sent and counted) and
removing its contribution to the counters. -/
def mesh_delete_drain (m : MeshArea) (k : QKey) : MeshArea :=
  match mesh_area_find m k with
  | none => m
  | some s =>
    { m with
      all := m.all.filter (fun t => decide (t.key ≠ k)),
      run := m.run.filter (fun q => decide (q ≠ k)),
      num_reply_addrs := m.num_reply_addrs - s.replyList.length,
      num_reply_states :=
        if s.replyList.isEmpty then m.num_reply_states
        else m.num_reply_states - 1,
      num_detached_states :=
        if isDetachedSt s then m.num_detached_states - 1
        else m.num_detached_states,
      replies_sent := m.replies_sent + s.replyList.length }

/-- Modelled from the spec (section 4.3.6, the FINISHED/ERROR branch)
and the contracts of `mesh_query_done`, `mesh_walk_supers` and
`mesh_state_delete` in `mesh.h`: when a state completes, its replies
are sent and drained, every state of its super-set is inserted into
the runnable set (in iteration order of the super-set), all super/sub
edges are detached, and the state is removed.  Per `mesh.h` (lines
256-258) the supers become runnable with event `module_event_pass`. -/
def mesh_state_done (m : MeshArea) (k : QKey) : MeshArea :=
  match mesh_area_find m k with
  | none => m
  | some s =>
    let m1 := { m with run := m.run.filter (fun q => decide (q ≠ k)) }
    let m2 := { m1 with run := s.superSet.foldl (fun r q => setInsert q r) m1.run }
    let m3 := mesh_detach_subs m2 k
    let dropSub : MState → MState :=
      fun t => { t with subSet := t.subSet.filter (fun x => decide (x ≠ k)) }
    let l4 := s.superSet.foldl (fun l q => updAt q dropSub l) m3.all
    let m4 := { m3 with all := l4 }
    mesh_delete_drain m4 k

/-- The event with which `mesh_run` (`mesh.h` lines 341-342) runs a
state from the runnable set: the state the run was started for receives
the triggering event, every other state receives
`module_event_pass`. -/
def mesh_run_event (target : QKey) (ev : ModuleEv) (q : QKey) : ModuleEv :=
  if q = target then ev else ModuleEv.module_event_pass

/-- The mesh operations of the module/worker interface, as transitions
on the mesh (spec sections 4.3.1-4.3.6). -/
inductive MeshOp where
  | newClient (q : QKey) (r : MeshReply)
  | attachSub (p : QKey) (k : QKey)
  | detachSubs (k : QKey)
  | stateDone (k : QKey)
deriving DecidableEq

/-- Apply one mesh operation. -/
def applyOp (m : MeshArea) : MeshOp → MeshArea
  | MeshOp.newClient q r => mesh_new_client m q r
  | MeshOp.attachSub p k => (mesh_attach_sub m p k).2
  | MeshOp.detachSubs k => mesh_detach_subs m k
  | MeshOp.stateDone k => mesh_state_done m k

/-- The mesh reached from the empty mesh by a sequence of
operations. -/
def runOps (ops : List MeshOp) : MeshArea :=
  ops.foldl applyOp mesh_create

/-- The demotion warning text of `ports_create_if`. -/
def noIp6WarnMsg : String := "IPv6 protocol not available"

/-- The listen types of the sockets `listening_ports_open` opens for one
address family in the default (no configured interfaces) case, in the
order of the final port list (the C list is built by head insertion, so
the TCP socket of a family precedes its UDP socket): written from the
claim, for comparison with the embedding.  `u`/`et` are the effective
UDP/TCP transports, `ea` the effective interface-automatic mode. -/
def familyDefaultTypes (u et ea : Bool) : List LType :=
  (if et then [LType.tcp] else []) ++
    (if u then [if ea then LType.udpancil else LType.udp] else [])

/-- The listen types of the full default socket list, written from the
claim: IPv4 sockets (created last) precede IPv6 sockets in the list;
`none` when no family or no transport is enabled. -/
def expectedDefaultTypes (ip4 ip6 u et ea : Bool) : Option (List LType) :=
  if ip4 = false ∧ ip6 = false then none
  else if u = false ∧ et = false then none
  else some ((if ip4 then familyDefaultTypes u et ea else []) ++
    (if ip6 then familyDefaultTypes u et ea else []))

/-- The default address a family binds, written from the claim:
wildcards under effective interface-automatic, loopback otherwise. -/
def familyDefaultAddr (fam : Family) (ea : Bool) : String :=
  match fam with
  | Family.inet6 => if ea then "::0" else "::1"
  | Family.inet => if ea then "0.0.0.0" else "127.0.0.1"

/-- The bound addresses of the default socket list in bind order (IPv6
first, UDP before TCP within a family), written from the claim. -/
def expectedDefaultBinds (ip4 ip6 u et ea : Bool) :
    List (String × Family × SType) :=
  if ip4 = false ∧ ip6 = false then []
  else if u = false ∧ et = false then []
  else
    (if ip6 then
      (if u then [(familyDefaultAddr Family.inet6 ea, Family.inet6, SType.dgram)]
       else []) ++
      (if et then [(familyDefaultAddr Family.inet6 ea, Family.inet6, SType.stream)]
       else [])
     else []) ++
    (if ip4 then
      (if u then [(familyDefaultAddr Family.inet ea, Family.inet, SType.dgram)]
       else []) ++
      (if et then [(familyDefaultAddr Family.inet ea, Family.inet, SType.stream)]
       else [])
     else [])

/-- Key uniqueness of the `all` tree (`mesh.h`: at most one mesh state
per key). -/
def keysNodup (m : MeshArea) : Prop :=
  (m.all.map MState.key).Nodup

/-- The documented meaning of the three state counters of `mesh_area`
(`mesh.h` lines 76-85): total replies, states with replies, detached
states. -/
def MeshCountersOk (m : MeshArea) : Prop :=
  m.num_reply_addrs = sumReplies m.all ∧
  m.num_reply_states = countReplySt m.all ∧
  m.num_detached_states = countDetached m.all

/-!  Theorems.  Each claim theorem carries its claim id. -/

/-- C6: `listen_pushback` stops listening on exactly the comm points of
type `comm_udp` and `comm_tcp_accept`, leaving every other comm point
(in particular established per-connection `comm_tcp` points) entirely
unchanged; `listen_resume` restarts listening on exactly that same
set. -/
theorem c6_pushback_resume_exact_set (l : List CommPoint) (i : Nat)
    (h : i < l.length) :
    (((l.get ⟨i, h⟩).ctype = CommType.comm_udp ∨
        (l.get ⟨i, h⟩).ctype = CommType.comm_tcp_accept) →
      (listen_pushback l).get ⟨i, by simpa [listen_pushback] using h⟩ =
          comm_point_stop_listening (l.get ⟨i, h⟩) ∧
      (listen_resume l).get ⟨i, by simpa [listen_resume] using h⟩ =
          comm_point_start_listening (l.get ⟨i, h⟩)) ∧
    (((l.get ⟨i, h⟩).ctype ≠ CommType.comm_udp ∧
        (l.get ⟨i, h⟩).ctype ≠ CommType.comm_tcp_accept) →
      (listen_pushback l).get ⟨i, by simpa [listen_pushback] using h⟩ =
          l.get ⟨i, h⟩ ∧
      (listen_resume l).get ⟨i, by simpa [listen_resume] using h⟩ =
          l.get ⟨i, h⟩) := by
  constructor
  · intro hc
    have hnot : ¬((l.get ⟨i, h⟩).ctype ≠ CommType.comm_udp ∧
        (l.get ⟨i, h⟩).ctype ≠ CommType.comm_tcp_accept) := by tauto
    constructor
    · simp only [listen_pushback, List.get_eq_getElem, List.getElem_map]
      rw [if_neg]
      simpa using hnot
    · simp only [listen_resume, List.get_eq_getElem, List.getElem_map]
      rw [if_neg]
      simpa using hnot
  · intro hc
    constructor
    · simp only [listen_pushback, List.get_eq_getElem, List.getElem_map]
      rw [if_pos]
      simpa using hc
    · simp only [listen_resume, List.get_eq_getElem, List.getElem_map]
      rw [if_pos]
      simpa using hc

/-- Witness for C6 at a concrete comm point list: a `comm_udp` point is
stopped and restarted, a `comm_tcp` point is left unchanged. -/
theorem c6_witness :
    ((listen_pushback [⟨5, CommType.comm_udp, true, false⟩,
        ⟨6, CommType.comm_tcp, true, false⟩]).get ⟨0, by decide⟩ =
      comm_point_stop_listening ⟨5, CommType.comm_udp, true, false⟩ ∧
     (listen_resume [⟨5, CommType.comm_udp, true, false⟩,
        ⟨6, CommType.comm_tcp, true, false⟩]).get ⟨0, by decide⟩ =
      comm_point_start_listening ⟨5, CommType.comm_udp, true, false⟩) ∧
    ((listen_pushback [⟨5, CommType.comm_udp, true, false⟩,
        ⟨6, CommType.comm_tcp, true, false⟩]).get ⟨1, by decide⟩ =
      (⟨6, CommType.comm_tcp, true, false⟩ : CommPoint) ∧
     (listen_resume [⟨5, CommType.comm_udp, true, false⟩,
        ⟨6, CommType.comm_tcp, true, false⟩]).get ⟨1, by decide⟩ =
      (⟨6, CommType.comm_tcp, true, false⟩ : CommPoint)) :=
  ⟨(c6_pushback_resume_exact_set
      [⟨5, CommType.comm_udp, true, false⟩, ⟨6, CommType.comm_tcp, true, false⟩]
      0 (by decide)).1 (Or.inl rfl),
   (c6_pushback_resume_exact_set
      [⟨5, CommType.comm_udp, true, false⟩, ⟨6, CommType.comm_tcp, true, false⟩]
      1 (by decide)).2 (by decide)⟩

/-- C1 (code bug): the failure policy is violated on two paths.  At the
concrete failing input — interface-automatic configuration whose
`set_recvpktinfo` call fails after the udpancil socket was created —
`listening_ports_open` returns NULL (no listener) but descriptor 0 is
still open: the `set_recvpktinfo` failure path of `ports_create_if`
returns without `close(s)` and the socket is not yet on the port list,
so `listening_ports_free` never sees it.  Likewise
`create_tcp_accept_sock` returns `-1` without closing the socket on a
`bind()` failure after `socket()` succeeded. -/
theorem c1_hard_failure_leaks_descriptor :
    ((listening_ports_open
        ⟨53, true, true, true, true, true, 10, []⟩
        [{ AttemptEnv.allOk with pktinfoOk := false }] Sys.start).result
      = none ∧
     (listening_ports_open
        ⟨53, true, true, true, true, true, 10, []⟩
        [{ AttemptEnv.allOk with pktinfoOk := false }] Sys.start).st.openFds
      = [0]) ∧
    ((create_tcp_accept_sock Family.inet "10.0.0.1" 1
        { AttemptEnv.allOk with bindErr := some BindErrno.otherBindErr }
        Sys.start).sock = none ∧
     (create_tcp_accept_sock Family.inet "10.0.0.1" 1
        { AttemptEnv.allOk with bindErr := some BindErrno.otherBindErr }
        Sys.start).st.openFds = [0]) :=
  ⟨⟨rfl, rfl⟩, ⟨rfl, rfl⟩⟩

/-- C3 counterexample: with `if_automatic` enabled, only IPv4 enabled,
and `do_udp` disabled, `listening_ports_open` emits no warning at all
(the claim requires the interface-automatic warning), because the
warning is guarded by `do_auto = if_automatic && do_udp`. -/
theorem c3_counterexample_no_warning_without_udp :
    (⟨53, true, false, false, true, true, 10, []⟩ : ConfigFile).if_automatic
        = true ∧
    (⟨53, true, false, false, true, true, 10, []⟩ : ConfigFile).do_ip4 = true ∧
    (⟨53, true, false, false, true, true, 10, []⟩ : ConfigFile).do_ip6 = false ∧
    (listening_ports_open ⟨53, true, false, false, true, true, 10, []⟩ []
        Sys.start).st.warns = [] ∧
    (listening_ports_open ⟨53, true, false, false, true, true, 10, []⟩ []
        Sys.start).result = some [⟨0, LType.tcp⟩] :=
  ⟨rfl, rfl, rfl, rfl, rfl⟩

/-- C3 amended: when `if_automatic` *and `do_udp`* are enabled but only
one of `do_ip4`/`do_ip6` is enabled, `listening_ports_open` disables
the option with the warning and (with no interfaces configured and
sockets succeeding) still opens a non-empty set of listening sockets,
none tagged udpancil, all for the enabled family. -/
theorem c3_amended_auto_one_family_warns_and_opens
    (p nin : Nat) (dtcp dip4 : Bool) :
    (listening_ports_open ⟨p, dip4, !dip4, true, dtcp, true, nin, []⟩ []
        Sys.start).st.warns = [autoWarnMsg] ∧
    (listening_ports_open ⟨p, dip4, !dip4, true, dtcp, true, nin, []⟩ []
        Sys.start).result.map
      (fun l => decide (l ≠ []) &&
        l.all (fun pt => decide (pt.ftype ≠ LType.udpancil))) = some true ∧
    (listening_ports_open ⟨p, dip4, !dip4, true, dtcp, true, nin, []⟩ []
        Sys.start).st.binds.all
      (fun b => decide (b.2.1 = (if dip4 then Family.inet else Family.inet6)))
      = true := by
  cases nin <;> cases dtcp <;> cases dip4 <;> exact ⟨rfl, rfl, rfl⟩

/-- C5 counterexample: with the interface list empty, `if_automatic`
on, but `do_udp` off, `listening_ports_open` does not bind the
wildcards at all: it binds the defaults `::1` and `127.0.0.1` (TCP
only), and no socket is tagged udpancil — `do_auto` is
`if_automatic && do_udp`. -/
theorem c5_counterexample_auto_without_udp_binds_loopback :
    (⟨53, true, true, false, true, true, 10, []⟩ : ConfigFile).if_automatic
        = true ∧
    (listening_ports_open ⟨53, true, true, false, true, true, 10, []⟩ []
        Sys.start).st.binds =
      [("::1", Family.inet6, SType.stream),
       ("127.0.0.1", Family.inet, SType.stream)] ∧
    (listening_ports_open ⟨53, true, true, false, true, true, 10, []⟩ []
        Sys.start).result =
      some [⟨1, LType.tcp⟩, ⟨0, LType.tcp⟩] :=
  ⟨rfl, rfl, rfl⟩

/-- C5 amended: with the interface list empty and every socket call
succeeding, the listen types of the resulting port list and the bound
addresses are exactly the claim-side predictions `expectedDefaultTypes`
and `expectedDefaultBinds`: writing `et` for the effective TCP
transport (`do_tcp`, forced off when `incoming_num_tcp = 0`) and `ea`
for the effective automatic mode (`if_automatic ∧ do_udp ∧ do_ip4 ∧
do_ip6`), the defaults `::1` (if `do_ip6`) and `127.0.0.1` (if
`do_ip4`) are bound with one socket per effective transport when `ea`
is off, the wildcards `::0`/`0.0.0.0` with the UDP sockets tagged
udpancil when `ea` is on, and the result is NULL when no family or no
transport is effective. -/
theorem c5_amended_default_ports (p nin : Nat) (ia u t ip4 ip6 : Bool) :
    (listening_ports_open ⟨p, ip4, ip6, u, t, ia, nin, []⟩ []
        Sys.start).result.map (fun l => l.map ListenPort.ftype) =
      expectedDefaultTypes ip4 ip6 u
        (if nin = 0 then false else t) ((ia && u) && (ip4 && ip6)) ∧
    (listening_ports_open ⟨p, ip4, ip6, u, t, ia, nin, []⟩ []
        Sys.start).st.binds =
      expectedDefaultBinds ip4 ip6 u
        (if nin = 0 then false else t) ((ia && u) && (ip4 && ip6)) := by
  cases nin <;> cases ia <;> cases u <;> cases t <;> cases ip4 <;> cases ip6 <;>
    exact ⟨rfl, rfl⟩

/-- Closing a just-opened descriptor restores the open set when the
descriptor was fresh. -/
theorem sysClose_fresh (st : Sys) (h : st.nextFd ∉ st.openFds) :
    sysClose st.nextFd
        { st with nextFd := st.nextFd + 1, openFds := st.nextFd :: st.openFds } =
      { st with nextFd := st.nextFd + 1 } := by
  simp only [sysClose, List.filter_cons]
  have : (decide (st.nextFd ≠ st.nextFd)) = false := by simp
  rw [this]
  simp only [Bool.false_eq_true, if_false]
  have h2 : st.openFds.filter (fun x => decide (x ≠ st.nextFd)) = st.openFds :=
    List.filter_eq_self.mpr (fun a ha => by
      simp only [decide_eq_true_eq]
      intro he
      exact h (he ▸ ha))
  rw [h2]

/-- Closing a freshly allocated descriptor after an error was logged on
it restores the open set, keeping the log entry. -/
theorem sysClose_fresh_logErr (msg : String) (st : Sys)
    (h : st.nextFd ∉ st.openFds) :
    sysClose st.nextFd
        (logErr msg { st with nextFd := st.nextFd + 1,
                              openFds := st.nextFd :: st.openFds })
      = logErr msg { st with nextFd := st.nextFd + 1 } :=
  sysClose_fresh (logErr msg st) h

/-- The open descriptors after `listening_ports_free` are a subset of
those before. -/
theorem listening_ports_free_openFds_subset (l : List ListenPort) (st : Sys) :
    (listening_ports_free l st).openFds ⊆ st.openFds := by
  induction l generalizing st with
  | nil => exact fun x hx => hx
  | cons p rest ih =>
    intro x hx
    have hsub := ih (sysClose p.fd st) hx
    simp only [sysClose, List.mem_filter] at hsub
    exact hsub.1

/-- `listening_ports_free` closes every descriptor on the port list. -/
theorem listening_ports_free_closes (l : List ListenPort) (st : Sys)
    (pt : ListenPort) (hpt : pt ∈ l) :
    pt.fd ∉ (listening_ports_free l st).openFds := by
  induction l generalizing st with
  | nil => cases hpt
  | cons p rest ih =>
    cases hpt with
    | head =>
      intro hmem
      have hsub := listening_ports_free_openFds_subset rest (sysClose pt.fd st) hmem
      simp [sysClose, List.mem_filter] at hsub
    | tail _ hm => exact ih (sysClose p.fd st) hm

/-- C4 counterexample: a demotable AF_INET6 failure on a TCP-accept
socket attempt (socket() failing with EAFNOSUPPORT) is skipped
*silently* — no warning is logged (the `log_warn` in the TCP branch of
`ports_create_if` is commented out in the source), while setup
continues and succeeds with the remaining IPv4 interface. -/
theorem c4_counterexample_tcp_demote_is_silent :
    (listening_ports_open
        ⟨53, true, true, false, true, false, 10, [("::1", true), ("10.0.0.1", false)]⟩
        [{ AttemptEnv.allOk with sockErr := some SockErrno.eafnosupport },
         AttemptEnv.allOk] Sys.start).st.warns = [] ∧
    (listening_ports_open
        ⟨53, true, true, false, true, false, 10, [("::1", true), ("10.0.0.1", false)]⟩
        [{ AttemptEnv.allOk with sockErr := some SockErrno.eafnosupport },
         AttemptEnv.allOk] Sys.start).st.errs = [] ∧
    (listening_ports_open
        ⟨53, true, true, false, true, false, 10, [("::1", true), ("10.0.0.1", false)]⟩
        [{ AttemptEnv.allOk with sockErr := some SockErrno.eafnosupport },
         AttemptEnv.allOk] Sys.start).result = some [⟨0, LType.tcp⟩] :=
  ⟨rfl, rfl, rfl⟩

/-- C4 amended: during socket setup for an AF_INET6 address, a
`socket()` failure with EAFNOSUPPORT or EPROTONOSUPPORT, or a `bind()`
failure with EINVAL, is demoted and the socket skipped with setup
continuing — with the "IPv6 protocol not available" warning on UDP
attempts and silently on TCP-accept attempts; every other socket/bind
error class (any other `socket()` errno, a `bind()` EADDRINUSE, any
other `bind()` errno) makes the whole interface's setup fail with an
error logged, the UDP failure paths closing the failing descriptor (the
TCP paths leave it open, claim C1), and on failure
`listening_ports_open` frees the accumulated port list, closing every
descriptor on it (shown in general for `listening_ports_free` and
end-to-end at a concrete two-interface input whose second bind fails
with EADDRINUSE).  The twelve equations cover all six error classes on
both the UDP and the TCP-accept attempt. -/
theorem c4_amended_demote_vs_fail (nm : String) (dt : Bool)
    (es : List AttemptEnv) (list : List ListenPort) (st : Sys)
    (hfresh : st.nextFd ∉ st.openFds) :
    ports_create_if nm Family.inet6 false true dt
        ({ AttemptEnv.allOk with sockErr := some SockErrno.eafnosupport } :: es)
        list st
      = ⟨true, list, logWarn noIp6WarnMsg st, es⟩ ∧
    ports_create_if nm Family.inet6 false true dt
        ({ AttemptEnv.allOk with sockErr := some SockErrno.eprotonosupport } :: es)
        list st
      = ⟨true, list, logWarn noIp6WarnMsg st, es⟩ ∧
    ports_create_if nm Family.inet6 false true dt
        ({ AttemptEnv.allOk with bindErr := some BindErrno.einval } :: es)
        list st
      = ⟨true, list, logWarn noIp6WarnMsg { st with nextFd := st.nextFd + 1 }, es⟩ ∧
    ports_create_if nm Family.inet6 false false true
        ({ AttemptEnv.allOk with sockErr := some SockErrno.eafnosupport } :: es)
        list st
      = ⟨true, list, st, es⟩ ∧
    ports_create_if nm Family.inet6 false false true
        ({ AttemptEnv.allOk with sockErr := some SockErrno.eprotonosupport } :: es)
        list st
      = ⟨true, list, st, es⟩ ∧
    ports_create_if nm Family.inet6 false false true
        ({ AttemptEnv.allOk with bindErr := some BindErrno.einval } :: es)
        list st
      = ⟨true, list,
          { st with nextFd := st.nextFd + 1, openFds := st.nextFd :: st.openFds },
          es⟩ ∧
    ports_create_if nm Family.inet6 false true dt
        ({ AttemptEnv.allOk with sockErr := some SockErrno.otherSockErr } :: es)
        list st
      = ⟨false, list, logErr "cant create socket" st, es⟩ ∧
    ports_create_if nm Family.inet6 false true dt
        ({ AttemptEnv.allOk with bindErr := some BindErrno.eaddrinuse } :: es)
        list st
      = ⟨false, list,
          logErr "bind address already in use" { st with nextFd := st.nextFd + 1 },
          es⟩ ∧
    ports_create_if nm Family.inet6 false true dt
        ({ AttemptEnv.allOk with bindErr := some BindErrno.otherBindErr } :: es)
        list st
      = ⟨false, list,
          logErr "cant bind socket" { st with nextFd := st.nextFd + 1 }, es⟩ ∧
    ports_create_if nm Family.inet6 false false true
        ({ AttemptEnv.allOk with sockErr := some SockErrno.otherSockErr } :: es)
        list st
      = ⟨false, list, logErr "cant create socket" st, es⟩ ∧
    ports_create_if nm Family.inet6 false false true
        ({ AttemptEnv.allOk with bindErr := some BindErrno.eaddrinuse } :: es)
        list st
      = ⟨false, list,
          logErr "cant bind socket"
            { st with nextFd := st.nextFd + 1, openFds := st.nextFd :: st.openFds },
          es⟩ ∧
    ports_create_if nm Family.inet6 false false true
        ({ AttemptEnv.allOk with bindErr := some BindErrno.otherBindErr } :: es)
        list st
      = ⟨false, list,
          logErr "cant bind socket"
            { st with nextFd := st.nextFd + 1, openFds := st.nextFd :: st.openFds },
          es⟩ ∧
    (∀ l2 st2 pt, pt ∈ l2 → pt.fd ∉ (listening_ports_free l2 st2).openFds) ∧
    ((listening_ports_open
        ⟨53, false, true, true, false, false, 10, [("fd00::1", true), ("fd00::2", true)]⟩
        [AttemptEnv.allOk,
         { AttemptEnv.allOk with bindErr := some BindErrno.eaddrinuse }]
        Sys.start).result = none ∧
     (listening_ports_open
        ⟨53, false, true, true, false, false, 10, [("fd00::1", true), ("fd00::2", true)]⟩
        [AttemptEnv.allOk,
         { AttemptEnv.allOk with bindErr := some BindErrno.eaddrinuse }]
        Sys.start).st.openFds = []) := by
  have hclose := sysClose_fresh st hfresh
  have hclose2 := sysClose_fresh_logErr "cant bind socket" st hfresh
  refine ⟨?_, ?_, ?_, ?_, ?_, ?_, ?_, ?_, ?_, ?_, ?_, ?_, ?_, ⟨rfl, rfl⟩⟩
  · rfl
  · rfl
  · show ports_create_if _ _ _ _ _ _ _ _ = _
    simp only [ports_create_if, nextEnv, make_sock, create_udp_sock,
      AttemptEnv.allOk, sysSocket]
    norm_num
    rw [hclose]
    rfl
  · rfl
  · rfl
  · rfl
  · rfl
  · show ports_create_if _ _ _ _ _ _ _ _ = _
    simp only [ports_create_if, nextEnv, make_sock, create_udp_sock,
      AttemptEnv.allOk, sysSocket]
    norm_num
    rw [hclose]
  · show ports_create_if _ _ _ _ _ _ _ _ = _
    simp only [ports_create_if, nextEnv, make_sock, create_udp_sock,
      AttemptEnv.allOk, sysSocket]
    norm_num
    rw [hclose2]
  · rfl
  · rfl
  · rfl
  · exact fun l2 st2 pt h => listening_ports_free_closes l2 st2 pt h

/-- Witness for C4 at a concrete input: the fresh-descriptor hypothesis
holds for the initial state and the UDP demotion equation follows. -/
theorem c4_witness : Sys.start.nextFd ∉ Sys.start.openFds ∧
    ports_create_if "2001:db8::1" Family.inet6 false true false
        [{ AttemptEnv.allOk with sockErr := some SockErrno.eafnosupport }]
        [] Sys.start
      = ⟨true, [], logWarn noIp6WarnMsg Sys.start, []⟩ :=
  ⟨by decide,
   (c4_amended_demote_vs_fail "2001:db8::1" false [] [] Sys.start (by decide)).1⟩

/-- A configured interface whose address family is disabled contributes
nothing to the interface loop: removing it from the list leaves the
loop's result (ports, kernel state, logs) unchanged. -/
theorem lpo_ifs_skip (pre post : List (String × Bool)) (nm : String) (b : Bool)
    (ip4 ip6 u t : Bool) (envs : List AttemptEnv) (list : List ListenPort)
    (st : Sys) (hfam : if b then ip6 = false else ip4 = false) :
    lpo_ifs (pre ++ (nm, b) :: post) ip4 ip6 u t envs list st
      = lpo_ifs (pre ++ post) ip4 ip6 u t envs list st := by
  induction pre generalizing envs list st with
  | nil =>
    cases b with
    | false =>
      have h4 : ip4 = false := by simpa using hfam
      simp [lpo_ifs, h4]
    | true =>
      have h6 : ip6 = false := by simpa using hfam
      simp [lpo_ifs, h6]
  | cons hd rest ih =>
    obtain ⟨n2, b2⟩ := hd
    simp only [List.cons_append, lpo_ifs, List.append_eq, ih]

/-- C10: with a non-empty configured interface list, every configured
interface whose address family is disabled (an IPv6 literal with
`do_ip6` off, any other literal with `do_ip4` off, as classified by
`str_is_ip6`) is silently skipped: the entire outcome of
`listening_ports_open` — ports, open descriptors, bound addresses,
warnings and errors — is the same as if the interface were not
configured at all, so no socket is opened for it, nothing is logged,
and setup continues with the remaining interfaces. -/
theorem c10_disabled_family_interface_silently_skipped
    (p nin : Nat) (u t ia ip4 ip6 : Bool) (pre post : List (String × Bool))
    (nm : String) (b : Bool) (envs : List AttemptEnv) (st : Sys)
    (hfam : if b then ip6 = false else ip4 = false)
    (hne : pre ++ post ≠ []) :
    listening_ports_open ⟨p, ip4, ip6, u, t, ia, nin, pre ++ (nm, b) :: post⟩
        envs st
      = listening_ports_open ⟨p, ip4, ip6, u, t, ia, nin, pre ++ post⟩ envs st := by
  have hsk : ∀ (v w : Bool) (e : List AttemptEnv) (l : List ListenPort) (s : Sys),
      lpo_ifs (pre ++ (nm, b) :: post) ip4 ip6 v w e l s
        = lpo_ifs (pre ++ post) ip4 ip6 v w e l s :=
    fun v w e l s => lpo_ifs_skip pre post nm b ip4 ip6 v w e l s hfam
  have hne0 : ¬((pre ++ post).length = 0) :=
    fun hl => hne (List.length_eq_zero.mp hl)
  have hne2 : ¬(pre = [] ∧ post = []) := by
    rintro ⟨h1, h2⟩
    exact hne (by simp [h1, h2])
  cases ia <;> cases u <;> cases ip4 <;> cases ip6 <;>
    simp [listening_ports_open, Nat.succ_ne_zero, hne0, hne2, hsk, List.append_eq]

/-- Witness for C10 at a concrete input: an IPv6 literal with `do_ip6`
off is dropped from a two-interface configuration without any trace. -/
theorem c10_witness :
    (([("10.0.0.1", false)] ++ ([] : List (String × Bool))) ≠ []) ∧
    listening_ports_open ⟨53, true, false, true, true, false, 10,
        [("10.0.0.1", false)] ++ ("::1", true) :: []⟩ [] Sys.start
      = listening_ports_open ⟨53, true, false, true, true, false, 10,
        [("10.0.0.1", false)] ++ []⟩ [] Sys.start :=
  ⟨by decide,
   c10_disabled_family_interface_silently_skipped 53 10 true true false true false
     [("10.0.0.1", false)] [] "::1" true [] Sys.start (by decide) (by decide)⟩

/-- `make_sock` never logs a warning (only errors). -/
theorem make_sock_warns (stype : SType) (nm : String) (fam : Family)
    (env : AttemptEnv) (st : Sys) :
    (make_sock stype nm fam env st).st.warns = st.warns := by
  unfold make_sock create_udp_sock create_tcp_accept_sock
  repeat' split
  all_goals simp [sysClose, logErr, sysBind, sysSocket]
  all_goals split <;> rfl

/-- `listening_ports_free` does not change the logs. -/
theorem listening_ports_free_warns (l : List ListenPort) (st : Sys) :
    (listening_ports_free l st).warns = st.warns := by
  induction l generalizing st with
  | nil => rfl
  | cons p rest ih => simpa [listening_ports_free, sysClose] using ih (sysClose p.fd st)

/-- A successful `port_insert` pushes exactly the new port on the
list. -/
theorem port_insert_some {list : List ListenPort} {s : Nat} {ty : LType}
    {ok : Bool} {l2 : List ListenPort} (h : port_insert list s ty ok = some l2) :
    l2 = ⟨s, ty⟩ :: list := by
  unfold port_insert at h
  split at h
  · exact (Option.some.inj h).symm
  · cases h

/-- The TCP tail of `ports_create_if` adds only `tcp`-typed ports and
never warns. -/
theorem ports_if_tcp_props (nm : String) (fam : Family) (t : Bool)
    (envs : List AttemptEnv) (list : List ListenPort) (st : Sys) :
    (∀ pt ∈ (ports_if_tcp nm fam t envs list st).list,
        pt ∈ list ∨ pt.ftype = LType.tcp) ∧
    (ports_if_tcp nm fam t envs list st).st.warns = st.warns := by
  unfold ports_if_tcp
  split
  · exact ⟨fun pt hpt => Or.inl hpt, rfl⟩
  · have hw := make_sock_warns SType.stream nm fam (nextEnv envs).1 st
    dsimp only
    split
    · split
      · exact ⟨fun pt hpt => Or.inl hpt, hw⟩
      · exact ⟨fun pt hpt => Or.inl hpt, hw⟩
    · split
      · rename_i list2 heq
        have hl2 := port_insert_some heq
        subst hl2
        refine ⟨fun pt hpt => ?_, hw⟩
        rcases List.mem_cons.mp hpt with h2 | h2
        · right; rw [h2]
        · exact Or.inl h2
      · exact ⟨fun pt hpt => Or.inl hpt, hw⟩

/-- Without `do_auto`, `ports_create_if` adds only `udp`- and
`tcp`-typed ports (never udpancil) and can add at most the IPv6
demotion warning. -/
theorem ports_create_if_no_auto (nm : String) (fam : Family) (u t : Bool)
    (envs : List AttemptEnv) (list : List ListenPort) (st : Sys) :
    (∀ pt ∈ (ports_create_if nm fam false u t envs list st).list,
        pt ∈ list ∨ pt.ftype = LType.udp ∨ pt.ftype = LType.tcp) ∧
    ((ports_create_if nm fam false u t envs list st).st.warns = st.warns ∨
      (ports_create_if nm fam false u t envs list st).st.warns
        = st.warns ++ [noIp6WarnMsg]) := by
  unfold ports_create_if
  split
  · exact ⟨fun pt hpt => Or.inl hpt, Or.inl rfl⟩
  · split
    · rename_i hfalse
      exact absurd hfalse (by simp)
    · split
      · -- the do_udp branch
        have hw := make_sock_warns SType.dgram nm fam (nextEnv envs).1 st
        dsimp only
        split
        · split
          · exact ⟨fun pt hpt => Or.inl hpt,
              Or.inr (by simp [logWarn, noIp6WarnMsg, hw])⟩
          · exact ⟨fun pt hpt => Or.inl hpt, Or.inl hw⟩
        · split
          · exact ⟨fun pt hpt => Or.inl hpt, Or.inl hw⟩
          · rename_i heq
            have hl2 := port_insert_some heq
            subst hl2
            constructor
            · intro pt hpt
              rcases (ports_if_tcp_props _ _ _ _ _ _).1 pt hpt with h | h
              · rcases List.mem_cons.mp h with h2 | h2
                · right; left; rw [h2]
                · exact Or.inl h2
              · right; right; exact h
            · exact Or.inl (by rw [(ports_if_tcp_props _ _ _ _ _ _).2, hw])
      · -- the tcp-only branch
        obtain ⟨hmem, hwarns⟩ := ports_if_tcp_props nm fam t envs list st
        exact ⟨fun pt hpt => (hmem pt hpt).imp id Or.inr, Or.inl hwarns⟩

/-- Without `do_auto`, one `ports_create_if` call preserves
"no udpancil port and no interface-automatic warning". -/
theorem ports_create_if_no_auto_inv (fam : Family) (u t : Bool)
    (e : List AttemptEnv) (l0 : List ListenPort) (s0 : Sys) (nm0 : String)
    (h1 : ∀ pt ∈ l0, pt.ftype ≠ LType.udpancil)
    (h2 : autoWarnMsg ∉ s0.warns) :
    (∀ pt ∈ (ports_create_if nm0 fam false u t e l0 s0).list,
        pt.ftype ≠ LType.udpancil) ∧
    autoWarnMsg ∉ (ports_create_if nm0 fam false u t e l0 s0).st.warns := by
  obtain ⟨hmem, hwor⟩ := ports_create_if_no_auto nm0 fam u t e l0 s0
  constructor
  · intro pt hpt
    rcases hmem pt hpt with h | h | h
    · exact h1 pt h
    · simp [h]
    · simp [h]
  · rcases hwor with h | h
    · rw [h]; exact h2
    · rw [h]
      intro hmem2
      rcases List.mem_append.mp hmem2 with h3 | h3
      · exact h2 h3
      · have he : autoWarnMsg = noIp6WarnMsg := by simpa using h3
        exact absurd he (by decide)

/-- The interface loop never creates a udpancil port and never emits
the interface-automatic warning. -/
theorem lpo_ifs_no_ancil (ifs : List (String × Bool)) (ip4 ip6 u t : Bool)
    (envs : List AttemptEnv) (list : List ListenPort) (st : Sys)
    (hlist : ∀ pt ∈ list, pt.ftype ≠ LType.udpancil)
    (hw : autoWarnMsg ∉ st.warns) :
    (∀ l, (lpo_ifs ifs ip4 ip6 u t envs list st).1 = some l →
        ∀ pt ∈ l, pt.ftype ≠ LType.udpancil) ∧
    autoWarnMsg ∉ (lpo_ifs ifs ip4 ip6 u t envs list st).2.warns := by
  induction ifs generalizing envs list st with
  | nil =>
    refine ⟨fun l hl pt hpt => ?_, hw⟩
    have : list = l := Option.some.inj hl
    exact hlist pt (this ▸ hpt)
  | cons hd rest ih =>
    obtain ⟨nm2, b2⟩ := hd
    simp only [lpo_ifs]
    split
    · -- IPv6 literal
      split
      · exact ih envs list st hlist hw
      · obtain ⟨h1, h2⟩ := ports_create_if_no_auto_inv Family.inet6 u t envs list st nm2 hlist hw
        split
        · exact ih _ _ _ h1 h2
        · refine ⟨fun l hl => Option.noConfusion hl, ?_⟩
          rw [listening_ports_free_warns]
          exact h2
    · -- IPv4 literal
      split
      · exact ih envs list st hlist hw
      · obtain ⟨h1, h2⟩ := ports_create_if_no_auto_inv Family.inet u t envs list st nm2 hlist hw
        split
        · exact ih _ _ _ h1 h2
        · refine ⟨fun l hl => Option.noConfusion hl, ?_⟩
          rw [listening_ports_free_warns]
          exact h2

/-- Without `do_auto`, the defaults branch creates no udpancil port and
never emits the interface-automatic warning. -/
theorem lpo_defaults_no_auto_inv (u t ip4 ip6 : Bool)
    (envs : List AttemptEnv) (st0 : Sys) (hst : autoWarnMsg ∉ st0.warns) :
    (∀ l, (lpo_defaults false u t ip4 ip6 envs st0).result = some l →
        ∀ pt ∈ l, pt.ftype ≠ LType.udpancil) ∧
    autoWarnMsg ∉ (lpo_defaults false u t ip4 ip6 envs st0).st.warns := by
  have hnil : ∀ pt ∈ ([] : List ListenPort), pt.ftype ≠ LType.udpancil := by simp
  unfold lpo_defaults
  dsimp only
  rw [show (if (false : Bool) = true then "::0" else "::1") = "::1" from rfl]
  rw [show (if (false : Bool) = true then "0.0.0.0" else "127.0.0.1")
        = "127.0.0.1" from rfl]
  split
  · obtain ⟨h1, h2⟩ :=
      ports_create_if_no_auto_inv Family.inet6 u t envs [] st0 "::1" hnil hst
    split
    · refine ⟨fun l hl => Option.noConfusion hl, ?_⟩
      rw [listening_ports_free_warns]
      exact h2
    · split
      · obtain ⟨h3, h4⟩ :=
          ports_create_if_no_auto_inv Family.inet u t _ _ _ "127.0.0.1" h1 h2
        split
        · refine ⟨fun l hl => Option.noConfusion hl, ?_⟩
          rw [listening_ports_free_warns]
          exact h4
        · exact ⟨fun l hl => (Option.some.inj hl) ▸ h3, h4⟩
      · exact ⟨fun l hl => (Option.some.inj hl) ▸ h1, h2⟩
  · split
    · obtain ⟨h3, h4⟩ :=
        ports_create_if_no_auto_inv Family.inet u t envs [] st0 "127.0.0.1" hnil hst
      split
      · refine ⟨fun l hl => Option.noConfusion hl, ?_⟩
        rw [listening_ports_free_warns]
        exact h4
      · exact ⟨fun l hl => (Option.some.inj hl) ▸ h3, h4⟩
    · exact ⟨fun l hl => (Option.some.inj hl) ▸ hnil, hst⟩

/-- C9: `if_automatic` takes effect only when `do_udp` is also enabled:
`listening_ports_open` computes `do_auto` as `if_automatic && do_udp`,
so with `do_udp` disabled no udpancil socket is ever created — for any
world of system call outcomes — and the interface-automatic warning is
never emitted, whatever the family configuration. -/
theorem c9_if_automatic_requires_do_udp (cfg : ConfigFile)
    (envs : List AttemptEnv) (h : cfg.do_udp = false) :
    (∀ l, (listening_ports_open cfg envs Sys.start).result = some l →
        ∀ pt ∈ l, pt.ftype ≠ LType.udpancil) ∧
    autoWarnMsg ∉ (listening_ports_open cfg envs Sys.start).st.warns := by
  obtain ⟨p, i4, i6, u, t, ia, nin, ifs⟩ := cfg
  have h2 : u = false := h
  subst h2
  have hst : autoWarnMsg ∉ Sys.start.warns := by simp [Sys.start]
  have hnil : ∀ pt ∈ ([] : List ListenPort), pt.ftype ≠ LType.udpancil := by simp
  unfold listening_ports_open
  dsimp only
  split
  · exact ⟨fun l hl => Option.noConfusion hl, hst⟩
  · split
    · rename_i hcond
      exact absurd hcond.1 (by simp)
    · split
      · simp only [Bool.and_false]
        exact lpo_defaults_no_auto_inv false (if nin = 0 then false else t)
          i4 i6 envs Sys.start hst
      · exact lpo_ifs_no_ancil ifs i4 i6 false (if nin = 0 then false else t)
          envs [] Sys.start hnil hst

/-- Witness for C9: a concrete configuration with `if_automatic` on and
`do_udp` off. -/
theorem c9_witness :
    (⟨53, true, true, false, true, true, 10, []⟩ : ConfigFile).do_udp = false ∧
    ((∀ l, (listening_ports_open ⟨53, true, true, false, true, true, 10, []⟩
          [] Sys.start).result = some l →
        ∀ pt ∈ l, pt.ftype ≠ LType.udpancil) ∧
     autoWarnMsg ∉ (listening_ports_open
        ⟨53, true, true, false, true, true, 10, []⟩ [] Sys.start).st.warns) :=
  ⟨rfl, c9_if_automatic_requires_do_udp
    ⟨53, true, true, false, true, true, 10, []⟩ [] rfl⟩

/-!  Mesh toolbox lemmas. -/

/-- The inserted key is a member. -/
theorem setInsert_mem (k : QKey) (l : List QKey) : k ∈ setInsert k l := by
  unfold setInsert
  split
  · assumption
  · simp

/-- Inserting a present key is a no-op. -/
theorem setInsert_of_mem {k : QKey} {l : List QKey} (h : k ∈ l) :
    setInsert k l = l := if_pos h

/-- Membership in an inserted set. -/
theorem mem_setInsert {x k : QKey} {l : List QKey} :
    x ∈ setInsert k l ↔ x = k ∨ x ∈ l := by
  unfold setInsert
  split
  · rename_i h
    constructor
    · exact Or.inr
    · rintro (rfl | hx)
      · exact h
      · exact hx
  · simp [or_comm]

/-- The result of an insertion is never empty. -/
theorem setInsert_ne_nil (k : QKey) (l : List QKey) : setInsert k l ≠ [] := by
  unfold setInsert
  split
  · rename_i h
    intro he
    rw [he] at h
    cases h
  · simp

/-- `updAt` preserves length. -/
theorem length_updAt (k : QKey) (f : MState → MState) (l : List MState) :
    (updAt k f l).length = l.length := List.length_map ..

/-- `updAt` with a key-preserving function preserves the key list. -/
theorem keys_updAt (k : QKey) (f : MState → MState)
    (hk : ∀ s, (f s).key = s.key) (l : List MState) :
    (updAt k f l).map MState.key = l.map MState.key := by
  unfold updAt
  rw [List.map_map]
  apply List.map_congr_left
  intro s _
  by_cases h : s.key = k <;> simp [h, hk]

/-- Lookup in an `updAt`-updated list, for a key-preserving update. -/
theorem find?_updAt (k x : QKey) (f : MState → MState)
    (hk : ∀ s, (f s).key = s.key) (l : List MState) :
    (updAt k f l).find? (fun s => decide (s.key = x))
      = (l.find? (fun s => decide (s.key = x))).map
          (fun s => if s.key = k then f s else s) := by
  induction l with
  | nil => rfl
  | cons a t ih =>
    have hkeq : (if a.key = k then f a else a).key = a.key := by
      split
      · exact hk a
      · rfl
    by_cases h : a.key = x
    · rw [List.find?_cons_of_pos _ (by simpa using h)]
      unfold updAt
      rw [List.map_cons, List.find?_cons_of_pos _ (by rw [hkeq]; simpa using h)]
      rfl
    · rw [List.find?_cons_of_neg _ (by simpa using h)]
      unfold updAt
      rw [List.map_cons, List.find?_cons_of_neg _ (by rw [hkeq]; simpa using h)]
      exact ih

/-- `updAt` with an absent key changes nothing. -/
theorem updAt_id (k : QKey) (f : MState → MState) (l : List MState)
    (h : ∀ s ∈ l, s.key ≠ k) : updAt k f l = l := by
  unfold updAt
  have h2 : ∀ s ∈ l, (if s.key = k then f s else s) = s :=
    fun s hs => if_neg (h s hs)
  rw [List.map_congr_left h2]
  simp

/-- `updAt` with a pointwise-fixed update changes nothing. -/
theorem updAt_id_of_fix (k : QKey) (f : MState → MState) (l : List MState)
    (h : ∀ s ∈ l, s.key = k → f s = s) : updAt k f l = l := by
  unfold updAt
  have h2 : ∀ s ∈ l, (if s.key = k then f s else s) = s := by
    intro s hs
    split
    · exact h s hs (by assumption)
    · rfl
  rw [List.map_congr_left h2]
  simp

/-- Decomposition of a keyed list at a found key, under key
uniqueness: the list splits around the unique occurrence and `updAt`
rewrites exactly it. -/
theorem updAt_split {l : List MState} {k : QKey} {s0 : MState}
    (hnd : (l.map MState.key).Nodup)
    (hfind : l.find? (fun s => decide (s.key = k)) = some s0)
    (f : MState → MState) :
    ∃ l1 l2, l = l1 ++ s0 :: l2 ∧ s0.key = k ∧
      updAt k f l = l1 ++ f s0 :: l2 ∧
      (∀ x ∈ l1, x.key ≠ k) ∧ (∀ x ∈ l2, x.key ≠ k) := by
  induction l with
  | nil => cases hfind
  | cons a t ih =>
    rw [List.map_cons, List.nodup_cons] at hnd
    by_cases h : a.key = k
    · rw [List.find?_cons_of_pos _ (by simpa using h)] at hfind
      have ha : a = s0 := Option.some.inj hfind
      subst ha
      have hnotin : ∀ x ∈ t, x.key ≠ k := by
        intro x hx he
        apply hnd.1
        have hm : x.key ∈ t.map MState.key := List.mem_map_of_mem MState.key hx
        rwa [he, ← h] at hm
      refine ⟨[], t, by simp, h, ?_, by simp, hnotin⟩
      have h2 : ∀ s ∈ t, (if s.key = k then f s else s) = s :=
        fun s hs => if_neg (hnotin s hs)
      unfold updAt
      rw [List.map_cons, if_pos h, List.map_congr_left h2]
      simp
    · rw [List.find?_cons_of_neg _ (by simpa using h)] at hfind
      obtain ⟨l1, l2, he, hk0, hupd, h1, h2⟩ := ih hnd.2 hfind
      refine ⟨a :: l1, l2, by simp [he], hk0, ?_, ?_, h2⟩
      · unfold updAt
        rw [List.map_cons, if_neg h]
        unfold updAt at hupd
        rw [hupd]
        rfl
      · intro x hx
        rcases List.mem_cons.mp hx with rfl | hx2
        · exact h
        · exact h1 x hx2

/-- Detached-state count over an append. -/
theorem countDetached_append (l1 l2 : List MState) :
    countDetached (l1 ++ l2) = countDetached l1 + countDetached l2 := by
  simp [countDetached, List.filter_append]

/-- Detached-state count over a cons. -/
theorem countDetached_cons (s : MState) (l : List MState) :
    countDetached (s :: l)
      = (if isDetachedSt s then 1 else 0) + countDetached l := by
  simp only [countDetached, List.filter_cons]
  split <;> simp_all [Nat.add_comm]

/-- Reply-state count over an append. -/
theorem countReplySt_append (l1 l2 : List MState) :
    countReplySt (l1 ++ l2) = countReplySt l1 + countReplySt l2 := by
  simp [countReplySt, List.filter_append]

/-- Reply-state count over a cons. -/
theorem countReplySt_cons (s : MState) (l : List MState) :
    countReplySt (s :: l)
      = (if s.replyList.isEmpty then 0 else 1) + countReplySt l := by
  simp only [countReplySt, List.filter_cons]
  split <;> simp_all [Nat.add_comm]

/-- Total reply count over an append. -/
theorem sumReplies_append (l1 l2 : List MState) :
    sumReplies (l1 ++ l2) = sumReplies l1 + sumReplies l2 := by
  simp [sumReplies]

/-- Total reply count over a cons. -/
theorem sumReplies_cons (s : MState) (l : List MState) :
    sumReplies (s :: l) = s.replyList.length + sumReplies l := by
  simp [sumReplies]

/-- An update that changes neither the reply list nor the super-set
leaves the detached-state count unchanged. -/
theorem countDetached_updAt_frame (k : QKey) (f : MState → MState)
    (l : List MState) (hr : ∀ s, (f s).replyList = s.replyList)
    (hs : ∀ s, (f s).superSet = s.superSet) :
    countDetached (updAt k f l) = countDetached l := by
  induction l with
  | nil => rfl
  | cons a t ih =>
    show countDetached ((if a.key = k then f a else a) :: updAt k f t) = _
    have hd : isDetachedSt (if a.key = k then f a else a) = isDetachedSt a := by
      split
      · simp [isDetachedSt, hr, hs]
      · rfl
    rw [countDetached_cons, countDetached_cons, hd, ih]

/-- An update that does not change the reply list leaves the
reply-state count unchanged. -/
theorem countReplySt_updAt_frame (k : QKey) (f : MState → MState)
    (l : List MState) (hr : ∀ s, (f s).replyList = s.replyList) :
    countReplySt (updAt k f l) = countReplySt l := by
  induction l with
  | nil => rfl
  | cons a t ih =>
    show countReplySt ((if a.key = k then f a else a) :: updAt k f t) = _
    have hd : (if a.key = k then f a else a).replyList = a.replyList := by
      split
      · exact hr a
      · rfl
    rw [countReplySt_cons, countReplySt_cons, hd, ih]

/-- An update that does not change the reply list leaves the total
reply count unchanged. -/
theorem sumReplies_updAt_frame (k : QKey) (f : MState → MState)
    (l : List MState) (hr : ∀ s, (f s).replyList = s.replyList) :
    sumReplies (updAt k f l) = sumReplies l := by
  induction l with
  | nil => rfl
  | cons a t ih =>
    show sumReplies ((if a.key = k then f a else a) :: updAt k f t) = _
    have hd : (if a.key = k then f a else a).replyList = a.replyList := by
      split
      · exact hr a
      · rfl
    rw [sumReplies_cons, sumReplies_cons, hd, ih]

/-- `mesh_new_client` preserves key uniqueness and the documented
counter meanings. -/
theorem wf_new_client (m : MeshArea) (q : QKey) (r : MeshReply)
    (hnd : keysNodup m) (hc : MeshCountersOk m) :
    keysNodup (mesh_new_client m q r) ∧
    MeshCountersOk (mesh_new_client m q r) := by
  obtain ⟨ha, hrs, hds⟩ := hc
  rcases hf : mesh_area_find m q with _ | s
  · -- no state yet: a new state carrying the reply is appended
    have hq : ∀ s ∈ m.all, s.key ≠ q := by
      intro s hs
      have := List.find?_eq_none.mp hf s hs
      simpa using this
    constructor
    · unfold keysNodup at hnd ⊢
      simp only [mesh_new_client, hf]
      rw [List.map_append, List.nodup_append]
      refine ⟨hnd, by simp [mesh_state_create], ?_⟩
      intro x hx
      simp only [List.map_cons, List.map_nil, mesh_state_create]
      rcases List.mem_map.mp hx with ⟨s, hs, hkey⟩
      simp only [List.mem_singleton]
      intro he
      exact hq s hs (hkey.trans he)
    · refine ⟨?_, ?_, ?_⟩ <;>
        simp [mesh_new_client, hf, sumReplies_append, countReplySt_append,
          countDetached_append, sumReplies_cons, countReplySt_cons,
          countDetached_cons, mesh_state_create, sumReplies, countReplySt,
          countDetached, isDetachedSt, ha, hrs, hds]
  · -- existing state: the reply is appended to it
    have hfl : m.all.find? (fun t => decide (t.key = q)) = some s := hf
    obtain ⟨l1, l2, he, hk0, hupd, h1, h2⟩ := updAt_split hnd hfl
      (fun t => { t with replyList := t.replyList ++ [r] })
    constructor
    · unfold keysNodup
      simp only [mesh_new_client, hf]
      rw [keys_updAt q (fun t => { t with replyList := t.replyList ++ [r] })
        (fun t => rfl) m.all]
      exact hnd
    · have hall : m.all = l1 ++ s :: l2 := he
      refine ⟨?_, ?_, ?_⟩
      · simp only [mesh_new_client, hf]
        rw [hupd, sumReplies_append, sumReplies_cons]
        rw [ha, hall, sumReplies_append, sumReplies_cons]
        simp
        omega
      · simp only [mesh_new_client, hf]
        rw [hupd, countReplySt_append, countReplySt_cons]
        rw [hrs, hall, countReplySt_append, countReplySt_cons]
        by_cases hh : s.replyList.isEmpty <;> simp [hh] <;> omega
      · simp only [mesh_new_client, hf]
        rw [hupd, countDetached_append, countDetached_cons]
        rw [hds, hall, countDetached_append, countDetached_cons]
        by_cases hh : s.replyList.isEmpty && s.superSet.isEmpty <;>
          simp [hh, isDetachedSt] <;>
          simp_all [isDetachedSt] <;> omega

/-- Effect of `mesh_state_attachment` on the key list and the counts,
when the sub-state exists: keys and reply counts are unchanged, and the
detached count loses exactly the sub-state's former detached status
(the sub has a super afterwards). -/
theorem attach_counts (m : MeshArea) (p k : QKey) (sub : MState)
    (hnd : (m.all.map MState.key).Nodup)
    (hfk : m.all.find? (fun s => decide (s.key = k)) = some sub) :
    (mesh_state_attachment m p k).all.map MState.key = m.all.map MState.key ∧
    sumReplies (mesh_state_attachment m p k).all = sumReplies m.all ∧
    countReplySt (mesh_state_attachment m p k).all = countReplySt m.all ∧
    countDetached (mesh_state_attachment m p k).all +
        (if isDetachedSt sub then 1 else 0)
      = countDetached m.all := by
  have hk1 : ∀ s : MState,
      ({ s with subSet := setInsert k s.subSet } : MState).key = s.key :=
    fun s => rfl
  have hnd1 : ((updAt p (fun t => { t with subSet := setInsert k t.subSet })
      m.all).map MState.key).Nodup := by
    rw [keys_updAt p _ hk1 m.all]
    exact hnd
  have hfind1 : (updAt p (fun t => { t with subSet := setInsert k t.subSet })
      m.all).find? (fun s => decide (s.key = k))
      = some (if sub.key = p then { sub with subSet := setInsert k sub.subSet }
          else sub) := by
    rw [find?_updAt p k _ hk1 m.all, hfk]
    rfl
  obtain ⟨L1, L2, hsplit, hkk, hupd2, hh1, hh2⟩ := updAt_split hnd1 hfind1
    (fun t => { t with superSet := setInsert p t.superSet })
  have hsub1r : (if sub.key = p then
      ({ sub with subSet := setInsert k sub.subSet } : MState)
      else sub).replyList = sub.replyList := by
    split
    · rfl
    · rfl
  have hsub1s : (if sub.key = p then
      ({ sub with subSet := setInsert k sub.subSet } : MState)
      else sub).superSet = sub.superSet := by
    split
    · rfl
    · rfl
  constructor
  · show (updAt k _ (updAt p _ m.all)).map MState.key = _
    rw [keys_updAt k (fun t => { t with superSet := setInsert p t.superSet })
        (fun s => rfl),
      keys_updAt p (fun t => { t with subSet := setInsert k t.subSet }) hk1]
  constructor
  · show sumReplies (updAt k _ (updAt p _ m.all)) = _
    rw [sumReplies_updAt_frame k
        (fun t => { t with superSet := setInsert p t.superSet }) _ (fun s => rfl),
      sumReplies_updAt_frame p
        (fun t => { t with subSet := setInsert k t.subSet }) _ (fun s => rfl)]
  constructor
  · show countReplySt (updAt k _ (updAt p _ m.all)) = _
    rw [countReplySt_updAt_frame k
        (fun t => { t with superSet := setInsert p t.superSet }) _ (fun s => rfl),
      countReplySt_updAt_frame p
        (fun t => { t with subSet := setInsert k t.subSet }) _ (fun s => rfl)]
  · show countDetached (updAt k _ (updAt p _ m.all)) + _ = _
    have hstep1 : countDetached (updAt p
        (fun t => { t with subSet := setInsert k t.subSet }) m.all)
        = countDetached m.all :=
      countDetached_updAt_frame p _ m.all (fun s => rfl) (fun s => rfl)
    rw [hupd2, countDetached_append, countDetached_cons]
    rw [← hstep1, hsplit, countDetached_append, countDetached_cons]
    have hnew : isDetachedSt { (if sub.key = p then
        ({ sub with subSet := setInsert k sub.subSet } : MState) else sub) with
        superSet := setInsert p (if sub.key = p then
          ({ sub with subSet := setInsert k sub.subSet } : MState)
          else sub).superSet } = false := by
      simp only [isDetachedSt]
      have := setInsert_ne_nil p (if sub.key = p then
        ({ sub with subSet := setInsert k sub.subSet } : MState)
        else sub).superSet
      simp [List.isEmpty_iff, this]
    have hold : isDetachedSt (if sub.key = p then
        ({ sub with subSet := setInsert k sub.subSet } : MState) else sub)
        = isDetachedSt sub := by
      simp only [isDetachedSt, hsub1r, hsub1s]
    rw [hnew, hold]
    simp
    omega

/-- `mesh_attach_sub` preserves key uniqueness and the documented
counter meanings. -/
theorem wf_attach (m : MeshArea) (p k : QKey)
    (hnd : keysNodup m) (hc : MeshCountersOk m) :
    keysNodup (mesh_attach_sub m p k).2 ∧
    MeshCountersOk (mesh_attach_sub m p k).2 := by
  obtain ⟨ha, hrs, hds⟩ := hc
  unfold mesh_attach_sub
  split
  · exact ⟨hnd, ha, hrs, hds⟩
  split
  · exact ⟨hnd, ha, hrs, hds⟩
  rcases hfk : mesh_area_find m k with _ | sub
  · -- a fresh sub-state is created, inserted and attached
    simp only [hfk]
    have hknotin : ∀ s ∈ m.all, s.key ≠ k := by
      intro s hs
      have := List.find?_eq_none.mp hfk s hs
      simpa using this
    have hnd1 : ((m.all ++ [mesh_state_create k]).map MState.key).Nodup := by
      rw [List.map_append, List.nodup_append]
      refine ⟨hnd, by simp [mesh_state_create], ?_⟩
      intro x hx
      simp only [List.map_cons, List.map_nil, mesh_state_create,
        List.mem_singleton]
      rcases List.mem_map.mp hx with ⟨s, hs, hkey⟩
      intro he
      exact hknotin s hs (hkey.trans he)
    have hfk1 : (m.all ++ [mesh_state_create k]).find?
        (fun s => decide (s.key = k)) = some (mesh_state_create k) := by
      have h0 : m.all.find? (fun s => decide (s.key = k)) = none := hfk
      simp [List.find?_append, h0, mesh_state_create]
    obtain ⟨hkeys, hsum, hcnt, hdet⟩ := attach_counts
      { m with all := m.all ++ [mesh_state_create k],
               num_detached_states := m.num_detached_states + 1 } p k
      (mesh_state_create k) hnd1 hfk1
    refine ⟨?_, ?_, ?_, ?_⟩
    · unfold keysNodup
      rw [show (mesh_state_attachment
          { m with all := m.all ++ [mesh_state_create k],
                   num_detached_states := m.num_detached_states + 1 } p k).all
          = (mesh_state_attachment
          { m with all := m.all ++ [mesh_state_create k],
                   num_detached_states := m.num_detached_states + 1 } p k).all
        from rfl]
      exact hkeys ▸ hnd1
    · show m.num_reply_addrs = sumReplies (mesh_state_attachment _ p k).all
      rw [hsum]
      show m.num_reply_addrs = sumReplies (m.all ++ [mesh_state_create k])
      rw [sumReplies_append, sumReplies_cons]
      simp [mesh_state_create, sumReplies, ha]
    · show m.num_reply_states = countReplySt (mesh_state_attachment _ p k).all
      rw [hcnt]
      show m.num_reply_states = countReplySt (m.all ++ [mesh_state_create k])
      rw [countReplySt_append, countReplySt_cons]
      simp [mesh_state_create, countReplySt, hrs]
    · show m.num_detached_states + 1 - 1
        = countDetached (mesh_state_attachment _ p k).all
      have hnewdet : isDetachedSt (mesh_state_create k) = true := by
        simp [isDetachedSt, mesh_state_create]
      rw [hnewdet] at hdet
      simp at hdet
      have happ : countDetached (m.all ++ [mesh_state_create k])
          = countDetached m.all + 1 := by
        rw [countDetached_append, countDetached_cons, hnewdet]
        simp [countDetached]
      omega
  · -- the sub-state already exists
    simp only [hfk]
    obtain ⟨hkeys, hsum, hcnt, hdet⟩ := attach_counts m p k sub hnd hfk
    split
    · rename_i hwd
      refine ⟨?_, ?_, ?_, ?_⟩
      · unfold keysNodup
        exact hkeys ▸ hnd
      · exact hsum ▸ ha
      · exact hcnt ▸ hrs
      · show m.num_detached_states - 1 = countDetached (mesh_state_attachment m p k).all
        have hsd : isDetachedSt sub = true := hwd
        rw [hsd] at hdet
        simp at hdet
        omega
    · rename_i hwd
      refine ⟨?_, ?_, ?_, ?_⟩
      · unfold keysNodup
        exact hkeys ▸ hnd
      · exact hsum ▸ ha
      · exact hcnt ▸ hrs
      · show m.num_detached_states = countDetached (mesh_state_attachment m p k).all
        have hsd : isDetachedSt sub = false := by
          simpa [isDetachedSt] using hwd
        rw [hsd] at hdet
        simp at hdet
        omega

/-- `removeSuperEdge` preserves key uniqueness and the documented
counter meanings. -/
theorem wf_removeSuperEdge (m : MeshArea) (parent x : QKey)
    (hnd : keysNodup m) (hc : MeshCountersOk m) :
    keysNodup (removeSuperEdge m parent x) ∧
    MeshCountersOk (removeSuperEdge m parent x) := by
  obtain ⟨ha, hrs, hds⟩ := hc
  unfold removeSuperEdge
  rcases hf : mesh_area_find m x with _ | xs
  · simp only [hf]
    exact ⟨hnd, ha, hrs, hds⟩
  · simp only [hf]
    obtain ⟨l1, l2, hsplit, hk0, hupd, h1, h2⟩ := updAt_split hnd hf
      (fun t => { t with
        superSet := xs.superSet.filter (fun q => decide (q ≠ parent)) })
    have hcd : countDetached m.all
        = countDetached l1 + ((if isDetachedSt xs then 1 else 0)
            + countDetached l2) := by
      rw [hsplit, countDetached_append, countDetached_cons]
    refine ⟨?_, ?_, ?_, ?_⟩
    · unfold keysNodup
      rw [keys_updAt x (fun t => { t with
          superSet := xs.superSet.filter (fun q => decide (q ≠ parent)) })
        (fun s => rfl)]
      exact hnd
    · show m.num_reply_addrs = sumReplies (updAt x _ m.all)
      rw [sumReplies_updAt_frame x (fun t => { t with
          superSet := xs.superSet.filter (fun q => decide (q ≠ parent)) }) _
        (fun s => rfl)]
      exact ha
    · show m.num_reply_states = countReplySt (updAt x _ m.all)
      rw [countReplySt_updAt_frame x (fun t => { t with
          superSet := xs.superSet.filter (fun q => decide (q ≠ parent)) }) _
        (fun s => rfl)]
      exact hrs
    · rw [hupd, countDetached_append, countDetached_cons]
      by_cases hp : parent ∈ xs.superSet
      · have hp' : decide (parent ∈ xs.superSet) = true := by simpa using hp
        have hne : xs.superSet ≠ [] := fun h => by simp [h] at hp
        have hdx : isDetachedSt xs = false := by
          simp [isDetachedSt, List.isEmpty_iff, hne]
        rw [hdx] at hcd
        simp at hcd
        by_cases he1 : (xs.superSet.filter
            (fun q => decide (q ≠ parent))).isEmpty = true
        · by_cases he2 : xs.replyList.isEmpty = true
          · simp only [isDetachedSt, hp', he1, he2, Bool.and_true,
              Bool.true_and, if_true]
            omega
          · have he2' : xs.replyList.isEmpty = false := by simpa using he2
            simp only [isDetachedSt, hp', he1, he2', Bool.and_true,
              Bool.true_and, Bool.and_false, Bool.false_eq_true, if_false]
            omega
        · have he1' : (xs.superSet.filter
              (fun q => decide (q ≠ parent))).isEmpty = false := by
            simpa using he1
          simp only [isDetachedSt, hp', he1', Bool.true_and, Bool.false_and,
            Bool.and_false, Bool.false_eq_true, if_false]
          omega
      · have hfilter : xs.superSet.filter (fun q => decide (q ≠ parent))
            = xs.superSet :=
          List.filter_eq_self.mpr (fun a ha2 => by
            simp only [decide_eq_true_eq]
            intro he
            exact hp (he ▸ ha2))
        have hp' : (decide (parent ∈ xs.superSet)) = false := by
          simpa using hp
        simp only [hfilter, hp', Bool.false_and, Bool.false_eq_true, if_false]
        have hsame : isDetachedSt { xs with superSet := xs.superSet }
            = isDetachedSt xs := rfl
        rw [hsame]
        omega

/-- `mesh_detach_subs` preserves key uniqueness and the documented
counter meanings. -/
theorem wf_detach_subs (m : MeshArea) (k : QKey)
    (hnd : keysNodup m) (hc : MeshCountersOk m) :
    keysNodup (mesh_detach_subs m k) ∧
    MeshCountersOk (mesh_detach_subs m k) := by
  unfold mesh_detach_subs
  rcases hf : mesh_area_find m k with _ | s
  · simp only [hf]
    exact ⟨hnd, hc⟩
  · simp only [hf]
    have hfold : ∀ (L : List QKey) (m0 : MeshArea),
        keysNodup m0 → MeshCountersOk m0 →
        keysNodup (L.foldl (fun acc x => removeSuperEdge acc k x) m0) ∧
        MeshCountersOk (L.foldl (fun acc x => removeSuperEdge acc k x) m0) := by
      intro L
      induction L with
      | nil => exact fun m0 h1 h2 => ⟨h1, h2⟩
      | cons a t ih =>
        intro m0 h1 h2
        exact ih _ (wf_removeSuperEdge m0 k a h1 h2).1
          (wf_removeSuperEdge m0 k a h1 h2).2
    obtain ⟨h1, h2⟩ := hfold s.subSet m hnd hc
    obtain ⟨ha, hrs, hds⟩ := h2
    constructor
    · unfold keysNodup at h1 ⊢
      rw [keys_updAt k (fun t => { t with subSet := [] }) (fun t => rfl)]
      exact h1
    · refine ⟨?_, ?_, ?_⟩
      · show _ = sumReplies (updAt k _ _)
        rw [sumReplies_updAt_frame k (fun t => { t with subSet := [] }) _
          (fun t => rfl)]
        exact ha
      · show _ = countReplySt (updAt k _ _)
        rw [countReplySt_updAt_frame k (fun t => { t with subSet := [] }) _
          (fun t => rfl)]
        exact hrs
      · show _ = countDetached (updAt k _ _)
        rw [countDetached_updAt_frame k (fun t => { t with subSet := [] }) _
          (fun t => rfl) (fun t => rfl)]
        exact hds

/-- `mesh_delete_drain` preserves key uniqueness and the documented
counter meanings. -/
theorem wf_delete_drain (m : MeshArea) (k : QKey)
    (hnd : keysNodup m) (hc : MeshCountersOk m) :
    keysNodup (mesh_delete_drain m k) ∧
    MeshCountersOk (mesh_delete_drain m k) := by
  obtain ⟨ha, hrs, hds⟩ := hc
  unfold mesh_delete_drain
  rcases hf : mesh_area_find m k with _ | s
  · simp only [hf]
    exact ⟨hnd, ha, hrs, hds⟩
  · simp only [hf]
    obtain ⟨l1, l2, hsplit, hk0, _, h1, h2⟩ := updAt_split hnd hf id
    have hfilter : m.all.filter (fun t => decide (t.key ≠ k)) = l1 ++ l2 := by
      rw [hsplit, List.filter_append, List.filter_cons]
      have hs0 : decide (s.key ≠ k) = false := by simp [hk0]
      rw [hs0]
      have hf1 : l1.filter (fun t => decide (t.key ≠ k)) = l1 :=
        List.filter_eq_self.mpr (fun a ha2 => by
          simpa using h1 a ha2)
      have hf2 : l2.filter (fun t => decide (t.key ≠ k)) = l2 :=
        List.filter_eq_self.mpr (fun a ha2 => by
          simpa using h2 a ha2)
      rw [hf1, hf2]
      simp
    have hsub : (l1 ++ l2).Sublist (l1 ++ s :: l2) :=
      List.Sublist.append_left (List.sublist_cons_self s l2) l1
    constructor
    · unfold keysNodup at hnd ⊢
      dsimp only
      rw [hfilter]
      exact (hsub.map MState.key).nodup (by rw [← hsplit]; exact hnd)
    · have hsums : sumReplies m.all
          = sumReplies l1 + (s.replyList.length + sumReplies l2) := by
        rw [hsplit, sumReplies_append, sumReplies_cons]
      have hcnts : countReplySt m.all
          = countReplySt l1 + ((if s.replyList.isEmpty then 0 else 1)
              + countReplySt l2) := by
        rw [hsplit, countReplySt_append, countReplySt_cons]
      have hdets : countDetached m.all
          = countDetached l1 + ((if isDetachedSt s then 1 else 0)
              + countDetached l2) := by
        rw [hsplit, countDetached_append, countDetached_cons]
      refine ⟨?_, ?_, ?_⟩
      · dsimp only
        rw [hfilter, sumReplies_append]
        omega
      · dsimp only
        rw [hfilter, countReplySt_append]
        by_cases he : s.replyList.isEmpty = true
        · rw [he] at hcnts
          simp at hcnts
          simp [he]
          omega
        · have he' : s.replyList.isEmpty = false := by simpa using he
          rw [he'] at hcnts
          simp at hcnts
          simp [he']
          have hlen : s.replyList.length ≠ 0 := by
            intro h0
            rw [List.length_eq_zero] at h0
            simp [h0] at he'
          omega
      · dsimp only
        rw [hfilter, countDetached_append]
        by_cases he : isDetachedSt s = true
        · rw [he] at hdets
          simp at hdets
          simp [he]
          omega
        · have he' : isDetachedSt s = false := by simpa using he
          rw [he'] at hdets
          simp at hdets
          simp [he']
          omega

/-- Removing a completed state from its supers' sub-sets (a fold of
sub-set-only updates) preserves key uniqueness and all counts. -/
theorem wf_drop_sub_fold (k : QKey) (L : List QKey) (l0 : List MState) :
    (L.foldl (fun l q => updAt q
        (fun t => { t with
          subSet := t.subSet.filter (fun x => decide (x ≠ k)) }) l)
      l0).map MState.key = l0.map MState.key ∧
    sumReplies (L.foldl (fun l q => updAt q
        (fun t => { t with
          subSet := t.subSet.filter (fun x => decide (x ≠ k)) }) l)
      l0) = sumReplies l0 ∧
    countReplySt (L.foldl (fun l q => updAt q
        (fun t => { t with
          subSet := t.subSet.filter (fun x => decide (x ≠ k)) }) l)
      l0) = countReplySt l0 ∧
    countDetached (L.foldl (fun l q => updAt q
        (fun t => { t with
          subSet := t.subSet.filter (fun x => decide (x ≠ k)) }) l)
      l0) = countDetached l0 := by
  induction L generalizing l0 with
  | nil => exact ⟨rfl, rfl, rfl, rfl⟩
  | cons a t ih =>
    obtain ⟨i1, i2, i3, i4⟩ := ih (updAt a
      (fun s => { s with
        subSet := s.subSet.filter (fun x => decide (x ≠ k)) }) l0)
    refine ⟨?_, ?_, ?_, ?_⟩
    · rw [List.foldl_cons, i1, keys_updAt a
        (fun s => { s with subSet := s.subSet.filter (fun x => decide (x ≠ k)) }) (fun t => rfl)]
    · rw [List.foldl_cons, i2, sumReplies_updAt_frame a
        (fun s => { s with subSet := s.subSet.filter (fun x => decide (x ≠ k)) }) _ (fun t => rfl)]
    · rw [List.foldl_cons, i3, countReplySt_updAt_frame a
        (fun s => { s with subSet := s.subSet.filter (fun x => decide (x ≠ k)) }) _ (fun t => rfl)]
    · rw [List.foldl_cons, i4, countDetached_updAt_frame a
        (fun s => { s with subSet := s.subSet.filter (fun x => decide (x ≠ k)) }) _ (fun t => rfl) (fun t => rfl)]

/-- `mesh_state_done` preserves key uniqueness and the documented
counter meanings. -/
theorem wf_state_done (m : MeshArea) (k : QKey)
    (hnd : keysNodup m) (hc : MeshCountersOk m) :
    keysNodup (mesh_state_done m k) ∧
    MeshCountersOk (mesh_state_done m k) := by
  unfold mesh_state_done
  rcases hf : mesh_area_find m k with _ | s
  · simp only [hf]
    exact ⟨hnd, hc⟩
  · simp only [hf]
    -- run-queue changes do not touch `all` or the counters
    have h3 := wf_detach_subs { m with run := s.superSet.foldl (fun r q => setInsert q r) (m.run.filter (fun q => decide (q ≠ k))) } k hnd hc
    obtain ⟨hnd3, hc3⟩ := h3
    obtain ⟨f1, f2, f3, f4⟩ := wf_drop_sub_fold k s.superSet
      (mesh_detach_subs { m with run := s.superSet.foldl (fun r q => setInsert q r) (m.run.filter (fun q => decide (q ≠ k))) } k).all
    apply wf_delete_drain
    · unfold keysNodup at hnd3 ⊢
      dsimp only
      rw [f1]
      exact hnd3
    · obtain ⟨ha3, hrs3, hds3⟩ := hc3
      exact ⟨by dsimp only; rw [f2]; exact ha3,
        by dsimp only; rw [f3]; exact hrs3,
        by dsimp only; rw [f4]; exact hds3⟩

/-- Every mesh operation preserves key uniqueness and the documented
counter meanings. -/
theorem wf_applyOp (m : MeshArea) (op : MeshOp)
    (hnd : keysNodup m) (hc : MeshCountersOk m) :
    keysNodup (applyOp m op) ∧ MeshCountersOk (applyOp m op) := by
  cases op with
  | newClient q r => exact wf_new_client m q r hnd hc
  | attachSub p k => exact wf_attach m p k hnd hc
  | detachSubs k => exact wf_detach_subs m k hnd hc
  | stateDone k => exact wf_state_done m k hnd hc

/-- Any mesh reachable from the empty mesh by mesh operations has
unique keys and counters with their documented meanings. -/
theorem wf_runOps (ops : List MeshOp) :
    keysNodup (runOps ops) ∧ MeshCountersOk (runOps ops) := by
  unfold runOps
  have main : ∀ (L : List MeshOp) (m : MeshArea),
      keysNodup m → MeshCountersOk m →
      keysNodup (L.foldl applyOp m) ∧ MeshCountersOk (L.foldl applyOp m) := by
    intro L
    induction L with
    | nil => exact fun m h1 h2 => ⟨h1, h2⟩
    | cons a t ih =>
      intro m h1 h2
      exact ih (applyOp m a) (wf_applyOp m a h1 h2).1 (wf_applyOp m a h1 h2).2
  exact main ops mesh_create (by simp [keysNodup, mesh_create])
    ⟨rfl, rfl, rfl⟩

/-- Each state with a reply contributes at least one reply address. -/
theorem countReplySt_le_sumReplies (l : List MState) :
    countReplySt l ≤ sumReplies l := by
  induction l with
  | nil => simp [countReplySt, sumReplies]
  | cons a t ih =>
    rw [countReplySt_cons, sumReplies_cons]
    by_cases he : a.replyList.isEmpty = true
    · simp only [he, if_true]
      omega
    · have he' : a.replyList.isEmpty = false := by simpa using he
      have hne : a.replyList ≠ [] := by
        simpa [List.isEmpty_iff] using he
      have hlen : 0 < a.replyList.length := List.length_pos.mpr hne
      simp only [he', Bool.false_eq_true, if_false]
      omega

/-- Detached states and reply states are disjoint subsets of `all`. -/
theorem countDetached_add_countReplySt_le (l : List MState) :
    countDetached l + countReplySt l ≤ l.length := by
  induction l with
  | nil => simp [countDetached, countReplySt]
  | cons a t ih =>
    rw [countDetached_cons, countReplySt_cons, List.length_cons]
    by_cases hd : isDetachedSt a = true
    · have hboth : a.replyList.isEmpty = true ∧ a.superSet.isEmpty = true := by
        simpa [isDetachedSt] using hd
      simp only [hd, hboth.1, if_true]
      omega
    · have hd' : isDetachedSt a = false := by simpa using hd
      simp only [hd', Bool.false_eq_true, if_false]
      by_cases he : a.replyList.isEmpty = true
      · simp only [he, if_true]
        omega
      · have he' : a.replyList.isEmpty = false := by simpa using he
        simp only [he', Bool.false_eq_true, if_false]
        omega

/-- C8 (modelled from the spec; mesh.c is not in the source tree): at
every point between mesh operations — that is, for any mesh reached
from the empty mesh by a sequence of `new_client`, `attach_sub`,
`detach_subs` and completion operations — the counters satisfy
`num_reply_states ≤ num_reply_addrs`, `num_detached_states` equals the
number of states whose reply list is empty and whose super-set is
empty, and hence `num_detached_states ≤ |all| − num_reply_states`. -/
theorem c8_mesh_counter_invariants (ops : List MeshOp) :
    (runOps ops).num_reply_states ≤ (runOps ops).num_reply_addrs ∧
    (runOps ops).num_detached_states = countDetached (runOps ops).all ∧
    (runOps ops).num_detached_states
      ≤ (runOps ops).all.length - (runOps ops).num_reply_states := by
  obtain ⟨hnd, ha, hrs, hds⟩ := wf_runOps ops
  refine ⟨?_, hds, ?_⟩
  · rw [ha, hrs]
    exact countReplySt_le_sumReplies _
  · rw [hds, hrs]
    have := countDetached_add_countReplySt_le (runOps ops).all
    omega

/-- One reachability step only adds keys. -/
theorem subset_reachStep (m : MeshArea) (S : Finset QKey) :
    S ⊆ reachStep m S := Finset.subset_union_left

/-- The reachability iteration is monotone in the step count. -/
theorem iterate_reachStep_mono (m : MeshArea) (S : Finset QKey) {j n : Nat}
    (h : j ≤ n) :
    (fun T => reachStep m T)^[j] S ⊆ (fun T => reachStep m T)^[n] S := by
  induction n with
  | zero =>
    have : j = 0 := Nat.le_zero.mp h
    subst this
    exact fun x hx => hx
  | succ n ih =>
    rcases Nat.lt_or_ge j (n + 1) with hlt | hge
    · have hj : j ≤ n := Nat.lt_succ_iff.mp hlt
      refine Finset.Subset.trans (ih hj) ?_
      rw [Function.iterate_succ_apply']
      exact subset_reachStep m _
    · have : j = n + 1 := Nat.le_antisymm h hge
      subst this
      exact fun x hx => hx

/-- Reachability steps agree on a set where the successor maps
agree. -/
theorem reachStep_congr (m1 m0 : MeshArea) (S : Finset QKey)
    (h : ∀ x ∈ S, succOf m1 x = succOf m0 x) :
    reachStep m1 S = reachStep m0 S := by
  unfold reachStep
  congr 1
  exact Finset.biUnion_congr rfl (fun x hx => by rw [h x hx])

/-- If the successor maps differ only at `p` and `p` is never reached
within `n` steps, the whole bounded reachability iterations agree. -/
theorem iterate_reachStep_congr (m1 m0 : MeshArea) (p : QKey)
    (S : Finset QKey) (n : Nat)
    (hsucc : ∀ x, x ≠ p → succOf m1 x = succOf m0 x)
    (hp : p ∉ (fun T => reachStep m0 T)^[n] S) :
    ∀ j, j ≤ n →
      (fun T => reachStep m1 T)^[j] S = (fun T => reachStep m0 T)^[j] S := by
  intro j hj
  induction j with
  | zero => rfl
  | succ j ih =>
    have hj' : j ≤ n := Nat.le_of_succ_le hj
    have hpj : p ∉ (fun T => reachStep m0 T)^[j] S :=
      fun hmem => hp (iterate_reachStep_mono m0 S hj' hmem)
    rw [Function.iterate_succ_apply', Function.iterate_succ_apply',
      ih hj']
    exact reachStep_congr m1 m0 _ (fun x hx =>
      hsucc x (fun he => hpj (he ▸ hx)))

/-- A key with no sub-edges is a fixpoint of the reachability
iteration from its singleton. -/
theorem iterate_reachStep_singleton (m : MeshArea) (k : QKey)
    (h : succOf m k = []) (j : Nat) :
    (fun T => reachStep m T)^[j] ({k} : Finset QKey) = {k} := by
  induction j with
  | zero => rfl
  | succ j ih =>
    rw [Function.iterate_succ_apply', ih]
    unfold reachStep
    simp [h]

/-- The start key is always in its own bounded reachability set. -/
theorem mem_reachSet_self (m : MeshArea) (k : QKey) : k ∈ reachSet m k := by
  unfold reachSet
  exact iterate_reachStep_mono m {k} (Nat.zero_le _) (by simp)

/-- Attaching an edge changes the sub-edge successor map only at the
parent. -/
theorem succOf_attachment (m : MeshArea) (p k x : QKey) (hx : x ≠ p) :
    succOf (mesh_state_attachment m p k) x = succOf m x := by
  unfold succOf mesh_area_find mesh_state_attachment
  dsimp only
  rw [find?_updAt k x (fun t => { t with superSet := setInsert p t.superSet })
    (fun t => rfl),
    find?_updAt p x (fun t => { t with subSet := setInsert k t.subSet })
    (fun t => rfl)]
  rcases hsx : m.all.find? (fun s => decide (s.key = x)) with _ | s
  · rw [hsx]
    rfl
  · have hkey : s.key = x := by simpa using List.find?_some hsx
    rw [hsx]
    dsimp only [Option.map]
    rw [if_neg (fun he => hx (hkey ▸ he))]
    by_cases hk2 : s.key = k
    · rw [if_pos hk2]
    · rw [if_neg hk2]

/-- The sub-edge successor map depends only on the `all` list. -/
theorem succOf_all_eq (m1 m0 : MeshArea) (h : m1.all = m0.all) (x : QKey) :
    succOf m1 x = succOf m0 x := by
  unfold succOf mesh_area_find
  rw [h]

/-- When both mutual edges are already present and no cycle is
detected, `mesh_attach_sub` is a complete no-op reporting that the
sub-state exists. -/
theorem attach_again (m1 : MeshArea) (p k : QKey)
    (hnd1 : keysNodup m1)
    (sp : MState) (hfp : mesh_area_find m1 p = some sp)
    (hkmem : k ∈ sp.subSet)
    (sub2 : MState) (hfk2 : mesh_area_find m1 k = some sub2)
    (hpmem : p ∈ sub2.superSet)
    (hdet : mesh_detect_cycle m1 p k = false) :
    mesh_attach_sub m1 p k = (AttachOut.attached none, m1) := by
  have hsupne : sub2.superSet.isEmpty = false := by
    rw [Bool.eq_false_iff]
    simp only [ne_eq, List.isEmpty_iff]
    exact List.ne_nil_of_mem hpmem
  have hfix1 : ∀ s ∈ m1.all, s.key = p →
      ({ s with subSet := setInsert k s.subSet } : MState) = s := by
    obtain ⟨l1, l2, hsplit, hk0, _, h1, h2⟩ := updAt_split hnd1 hfp
      (fun t => { t with subSet := setInsert k t.subSet })
    intro s hs hkey
    rw [hsplit] at hs
    rcases List.mem_append.mp hs with hmem | hmem
    · exact absurd hkey (h1 s hmem)
    · rcases List.mem_cons.mp hmem with rfl | hmem2
      · show ({ s with subSet := setInsert k s.subSet } : MState) = s
        rw [setInsert_of_mem hkmem]
      · exact absurd hkey (h2 s hmem2)
  have hfix2 : ∀ s ∈ m1.all, s.key = k →
      ({ s with superSet := setInsert p s.superSet } : MState) = s := by
    obtain ⟨l1, l2, hsplit, hk0, _, h1, h2⟩ := updAt_split hnd1 hfk2
      (fun t => { t with superSet := setInsert p t.superSet })
    intro s hs hkey
    rw [hsplit] at hs
    rcases List.mem_append.mp hs with hmem | hmem
    · exact absurd hkey (h1 s hmem)
    · rcases List.mem_cons.mp hmem with rfl | hmem2
      · show ({ s with superSet := setInsert p s.superSet } : MState) = s
        rw [setInsert_of_mem hpmem]
      · exact absurd hkey (h2 s hmem2)
  have e1 : updAt p (fun t => { t with subSet := setInsert k t.subSet })
      m1.all = m1.all := updAt_id_of_fix _ _ _ hfix1
  have e2 : updAt k (fun t => { t with superSet := setInsert p t.superSet })
      m1.all = m1.all := updAt_id_of_fix _ _ _ hfix2
  unfold mesh_attach_sub
  rw [if_neg (show ¬((mesh_area_find m1 p).isNone = true) by simp [hfp])]
  rw [if_neg (show ¬(mesh_detect_cycle m1 p k = true) by simp [hdet])]
  simp only [hfk2]
  rw [if_neg (show ¬((sub2.replyList.isEmpty && sub2.superSet.isEmpty) = true)
    by simp [hsupne])]
  unfold mesh_state_attachment
  dsimp only
  rw [e1, e2]

/-- `mesh_attach_sub` preserves key uniqueness (without any assumption
on the counters). -/
theorem nodup_attach_sub (m : MeshArea) (p k : QKey) (hnd : keysNodup m) :
    keysNodup (mesh_attach_sub m p k).2 := by
  unfold mesh_attach_sub
  split
  · exact hnd
  split
  · exact hnd
  rcases hfk : mesh_area_find m k with _ | sub
  · simp only [hfk]
    have hknotin : ∀ s ∈ m.all, s.key ≠ k := by
      intro s hs
      have := List.find?_eq_none.mp hfk s hs
      simpa using this
    have hnd1 : ((m.all ++ [mesh_state_create k]).map MState.key).Nodup := by
      rw [List.map_append, List.nodup_append]
      refine ⟨hnd, by simp [mesh_state_create], ?_⟩
      intro x hx
      simp only [List.map_cons, List.map_nil, mesh_state_create,
        List.mem_singleton]
      rcases List.mem_map.mp hx with ⟨s, hs, hkey⟩
      intro he
      exact hknotin s hs (hkey.trans he)
    have hfk1 : (m.all ++ [mesh_state_create k]).find?
        (fun s => decide (s.key = k)) = some (mesh_state_create k) := by
      have h0 : m.all.find? (fun s => decide (s.key = k)) = none := hfk
      simp [List.find?_append, h0, mesh_state_create]
    have hkeys := (attach_counts
      { m with all := m.all ++ [mesh_state_create k],
               num_detached_states := m.num_detached_states + 1 } p k
      (mesh_state_create k) hnd1 hfk1).1
    unfold keysNodup
    exact hkeys ▸ hnd1
  · simp only [hfk]
    have hkeys := (attach_counts m p k sub hnd hfk).1
    split
    · unfold keysNodup
      exact hkeys ▸ hnd
    · unfold keysNodup
      exact hkeys ▸ hnd

/-- C7 (modelled from the spec; mesh.c is not in the source tree): a
second `attach_sub(P, K)` immediately after a successful
`attach_sub(P, K)` is idempotent — it changes nothing at all (in
particular no edge counts and no counters) and reports that the
sub-state already exists (`newq = none`). -/
theorem c7_attach_sub_idempotent (m : MeshArea) (p k : QKey)
    (hnd : keysNodup m) (out1 : Option QKey) (m1 : MeshArea)
    (heq : mesh_attach_sub m p k = (AttachOut.attached out1, m1)) :
    mesh_attach_sub m1 p k = (AttachOut.attached none, m1) := by
  unfold mesh_attach_sub at heq
  by_cases hp : (mesh_area_find m p).isNone = true
  · rw [if_pos hp] at heq
    have := congrArg Prod.fst heq
    simp at this
  rw [if_neg hp] at heq
  obtain ⟨sp, hfp⟩ : ∃ sp, mesh_area_find m p = some sp := by
    rcases h : mesh_area_find m p with _ | sp
    · rw [h] at hp
      simp at hp
    · exact ⟨sp, rfl⟩
  have hspk : sp.key = p := by simpa using List.find?_some hfp
  have hspmem : sp ∈ m.all := List.mem_of_find?_eq_some hfp
  by_cases hcy : mesh_detect_cycle m p k = true
  · rw [if_pos hcy] at heq
    have := congrArg Prod.fst heq
    simp at this
  have hcyc : mesh_detect_cycle m p k = false := by simpa using hcy
  rw [if_neg hcy] at heq
  rcases hfk : mesh_area_find m k with _ | sub
  · -- the sub-state was created by the first call
    simp only [hfk] at heq
    have hm1 := congrArg Prod.snd heq
    dsimp only at hm1
    subst hm1
    have hpk : p ≠ k := by
      intro he
      have := List.find?_eq_none.mp hfk sp hspmem
      rw [hspk, he] at this
      simp at this
    have hfk1 : (m.all ++ [mesh_state_create k]).find?
        (fun s => decide (s.key = k)) = some (mesh_state_create k) := by
      have h0 : m.all.find? (fun s => decide (s.key = k)) = none := hfk
      simp [List.find?_append, h0, mesh_state_create]
    have hfp1 : (m.all ++ [mesh_state_create k]).find?
        (fun s => decide (s.key = p)) = some sp := by
      rw [List.find?_append]
      rw [show m.all.find? (fun s => decide (s.key = p)) = some sp from hfp]
      rfl
    have hknotin : ∀ s ∈ m.all, s.key ≠ k := by
      intro s hs
      have := List.find?_eq_none.mp hfk s hs
      simpa using this
    have hnd1 : ((m.all ++ [mesh_state_create k]).map MState.key).Nodup := by
      rw [List.map_append, List.nodup_append]
      refine ⟨hnd, by simp [mesh_state_create], ?_⟩
      intro x hx
      simp only [List.map_cons, List.map_nil, mesh_state_create,
        List.mem_singleton]
      rcases List.mem_map.mp hx with ⟨s, hs, hkey⟩
      intro he
      exact hknotin s hs (hkey.trans he)
    -- the resulting mesh
    have hXall : (mesh_state_attachment
        { m with all := m.all ++ [mesh_state_create k],
                 num_detached_states := m.num_detached_states + 1 } p k).all
        = updAt k (fun t => { t with superSet := setInsert p t.superSet })
          (updAt p (fun t => { t with subSet := setInsert k t.subSet })
            (m.all ++ [mesh_state_create k])) := rfl
    have hfXp : (updAt k
        (fun t => { t with superSet := setInsert p t.superSet })
        (updAt p (fun t => { t with subSet := setInsert k t.subSet })
          (m.all ++ [mesh_state_create k]))).find?
        (fun s => decide (s.key = p))
        = some { sp with subSet := setInsert k sp.subSet } := by
      rw [find?_updAt k p (fun t => { t with superSet := setInsert p t.superSet })
        (fun t => rfl),
        find?_updAt p p (fun t => { t with subSet := setInsert k t.subSet })
        (fun t => rfl), hfp1]
      dsimp only [Option.map]
      rw [if_pos hspk, if_neg (by
        show ¬(({ sp with subSet := setInsert k sp.subSet } : MState).key = k)
        show ¬(sp.key = k)
        rw [hspk]
        exact hpk)]
    have hfXk : (updAt k
        (fun t => { t with superSet := setInsert p t.superSet })
        (updAt p (fun t => { t with subSet := setInsert k t.subSet })
          (m.all ++ [mesh_state_create k]))).find?
        (fun s => decide (s.key = k))
        = some { mesh_state_create k with superSet := setInsert p [] } := by
      rw [find?_updAt k k (fun t => { t with superSet := setInsert p t.superSet })
        (fun t => rfl),
        find?_updAt p k (fun t => { t with subSet := setInsert k t.subSet })
        (fun t => rfl), hfk1]
      dsimp only [Option.map]
      have hne1 : ¬((mesh_state_create k).key = p) := fun he => hpk he.symm
      rw [if_neg hne1]
      have hpos1 : (mesh_state_create k).key = k := rfl
      rw [if_pos hpos1]
      rfl
    have hndX : ((updAt k
        (fun t => { t with superSet := setInsert p t.superSet })
        (updAt p (fun t => { t with subSet := setInsert k t.subSet })
          (m.all ++ [mesh_state_create k]))).map MState.key).Nodup := by
      rw [keys_updAt k (fun t => { t with superSet := setInsert p t.superSet })
        (fun t => rfl),
        keys_updAt p (fun t => { t with subSet := setInsert k t.subSet })
        (fun t => rfl)]
      exact hnd1
    have hsuccXk : succOf
        { mesh_state_attachment
            { m with all := m.all ++ [mesh_state_create k],
                     num_detached_states := m.num_detached_states + 1 } p k
          with num_detached_states :=
            (mesh_state_attachment
              { m with all := m.all ++ [mesh_state_create k],
                       num_detached_states := m.num_detached_states + 1 } p
              k).num_detached_states - 1 } k = [] := by
      unfold succOf mesh_area_find
      rw [show ({ mesh_state_attachment
            { m with all := m.all ++ [mesh_state_create k],
                     num_detached_states := m.num_detached_states + 1 } p k
          with num_detached_states := _ } : MeshArea).all
          = (mesh_state_attachment
            { m with all := m.all ++ [mesh_state_create k],
                     num_detached_states := m.num_detached_states + 1 } p
            k).all from rfl, hXall, hfXk]
      rfl
    have hdetX : mesh_detect_cycle
        { mesh_state_attachment
            { m with all := m.all ++ [mesh_state_create k],
                     num_detached_states := m.num_detached_states + 1 } p k
          with num_detached_states :=
            (mesh_state_attachment
              { m with all := m.all ++ [mesh_state_create k],
                       num_detached_states := m.num_detached_states + 1 } p
              k).num_detached_states - 1 } p k = false := by
      unfold mesh_detect_cycle reachSet
      rw [iterate_reachStep_singleton _ k hsuccXk]
      simp [hpk]
    refine attach_again _ p k hndX
      { sp with subSet := setInsert k sp.subSet } ?_ (setInsert_mem k sp.subSet)
      { mesh_state_create k with superSet := setInsert p [] } ?_
      (setInsert_mem p []) hdetX
    · show (_ : MeshArea).all.find? _ = _
      rw [show ({ mesh_state_attachment
            { m with all := m.all ++ [mesh_state_create k],
                     num_detached_states := m.num_detached_states + 1 } p k
          with num_detached_states := _ } : MeshArea).all
          = (mesh_state_attachment
            { m with all := m.all ++ [mesh_state_create k],
                     num_detached_states := m.num_detached_states + 1 } p
            k).all from rfl, hXall]
      exact hfXp
    · show (_ : MeshArea).all.find? _ = _
      rw [show ({ mesh_state_attachment
            { m with all := m.all ++ [mesh_state_create k],
                     num_detached_states := m.num_detached_states + 1 } p k
          with num_detached_states := _ } : MeshArea).all
          = (mesh_state_attachment
            { m with all := m.all ++ [mesh_state_create k],
                     num_detached_states := m.num_detached_states + 1 } p
            k).all from rfl, hXall]
      exact hfXk
  · -- the sub-state already existed before the first call
    simp only [hfk] at heq
    have hsubk : sub.key = k := by simpa using List.find?_some hfk
    have hpk : p ≠ k := by
      intro he
      subst he
      simp [mesh_detect_cycle, hfk, mem_reachSet_self] at hcyc
    have hnotr : p ∉ reachSet m k := by
      intro hmem
      have : mesh_detect_cycle m p k = true := by
        simp [mesh_detect_cycle, hfk, hmem]
      rw [this] at hcyc
      cases hcyc
    have hAall : (mesh_state_attachment m p k).all
        = updAt k (fun t => { t with superSet := setInsert p t.superSet })
          (updAt p (fun t => { t with subSet := setInsert k t.subSet })
            m.all) := rfl
    have hfAp : (mesh_state_attachment m p k).all.find?
        (fun s => decide (s.key = p))
        = some { sp with subSet := setInsert k sp.subSet } := by
      rw [hAall,
        find?_updAt k p (fun t => { t with superSet := setInsert p t.superSet })
        (fun t => rfl),
        find?_updAt p p (fun t => { t with subSet := setInsert k t.subSet })
        (fun t => rfl),
        show m.all.find? (fun s => decide (s.key = p)) = some sp from hfp]
      dsimp only [Option.map]
      rw [if_pos hspk, if_neg (by
        show ¬(({ sp with subSet := setInsert k sp.subSet } : MState).key = k)
        show ¬(sp.key = k)
        rw [hspk]
        exact hpk)]
    have hfAk : (mesh_state_attachment m p k).all.find?
        (fun s => decide (s.key = k))
        = some { sub with superSet := setInsert p sub.superSet } := by
      rw [hAall,
        find?_updAt k k (fun t => { t with superSet := setInsert p t.superSet })
        (fun t => rfl),
        find?_updAt p k (fun t => { t with subSet := setInsert k t.subSet })
        (fun t => rfl),
        show m.all.find? (fun s => decide (s.key = k)) = some sub from hfk]
      dsimp only [Option.map]
      have hne2 : ¬(sub.key = p) := by
        rw [hsubk]
        exact fun he => hpk he.symm
      rw [if_neg hne2]
      rw [if_pos hsubk]
    have hndA : ((mesh_state_attachment m p k).all.map MState.key).Nodup := by
      rw [hAall,
        keys_updAt k (fun t => { t with superSet := setInsert p t.superSet })
        (fun t => rfl),
        keys_updAt p (fun t => { t with subSet := setInsert k t.subSet })
        (fun t => rfl)]
      exact hnd
    have hlenA : (mesh_state_attachment m p k).all.length = m.all.length := by
      rw [hAall, length_updAt, length_updAt]
    have hreachA : reachSet (mesh_state_attachment m p k) k = reachSet m k := by
      unfold reachSet
      rw [hlenA]
      exact iterate_reachStep_congr (mesh_state_attachment m p k) m p {k}
        m.all.length (fun x hx => succOf_attachment m p k x hx) hnotr
        m.all.length (Nat.le_refl _)
    have hdetA : mesh_detect_cycle (mesh_state_attachment m p k) p k
        = false := by
      unfold mesh_detect_cycle
      rw [hreachA]
      unfold mesh_area_find
      rw [hfAk]
      simp [hnotr]
    by_cases hwd : (sub.replyList.isEmpty && sub.superSet.isEmpty) = true
    · rw [if_pos hwd] at heq
      have hm1 := congrArg Prod.snd heq
      dsimp only at hm1
      subst hm1
      exact attach_again _ p k hndA
        { sp with subSet := setInsert k sp.subSet } hfAp
        (setInsert_mem k sp.subSet)
        { sub with superSet := setInsert p sub.superSet } hfAk
        (setInsert_mem p sub.superSet) hdetA
    · rw [if_neg hwd] at heq
      have hm1 := congrArg Prod.snd heq
      dsimp only at hm1
      subst hm1
      exact attach_again _ p k hndA
        { sp with subSet := setInsert k sp.subSet } hfAp
        (setInsert_mem k sp.subSet)
        { sub with superSet := setInsert p sub.superSet } hfAk
        (setInsert_mem p sub.superSet) hdetA

/-- Witness for C7: a concrete mesh with one parent state; the first
attach creates the sub-state, the second is a no-op returning
`newq = none`. -/
theorem c7_witness :
    keysNodup ⟨[⟨⟨1,1,1,true,false,false⟩, [⟨0,0⟩], [], []⟩], [], 1, 1, 0, 0⟩ ∧
    mesh_attach_sub ⟨[⟨⟨1,1,1,true,false,false⟩, [⟨0,0⟩], [], []⟩], [], 1, 1, 0, 0⟩
      ⟨1,1,1,true,false,false⟩ ⟨2,1,1,true,false,false⟩
    = (AttachOut.attached (some ⟨2,1,1,true,false,false⟩),
       ⟨[⟨⟨1,1,1,true,false,false⟩, [⟨0,0⟩], [], [⟨2,1,1,true,false,false⟩]⟩,
         ⟨⟨2,1,1,true,false,false⟩, [], [⟨1,1,1,true,false,false⟩], []⟩],
        [], 1, 1, 0, 0⟩) ∧
    mesh_attach_sub
       ⟨[⟨⟨1,1,1,true,false,false⟩, [⟨0,0⟩], [], [⟨2,1,1,true,false,false⟩]⟩,
         ⟨⟨2,1,1,true,false,false⟩, [], [⟨1,1,1,true,false,false⟩], []⟩],
        [], 1, 1, 0, 0⟩
      ⟨1,1,1,true,false,false⟩ ⟨2,1,1,true,false,false⟩
    = (AttachOut.attached none,
       ⟨[⟨⟨1,1,1,true,false,false⟩, [⟨0,0⟩], [], [⟨2,1,1,true,false,false⟩]⟩,
         ⟨⟨2,1,1,true,false,false⟩, [], [⟨1,1,1,true,false,false⟩], []⟩],
        [], 1, 1, 0, 0⟩) :=
  ⟨by unfold keysNodup; decide, by decide,
    c7_attach_sub_idempotent
      ⟨[⟨⟨1,1,1,true,false,false⟩, [⟨0,0⟩], [], []⟩], [], 1, 1, 0, 0⟩
      ⟨1,1,1,true,false,false⟩ ⟨2,1,1,true,false,false⟩
      (by unfold keysNodup; decide)
      (some ⟨2,1,1,true,false,false⟩)
      ⟨[⟨⟨1,1,1,true,false,false⟩, [⟨0,0⟩], [], [⟨2,1,1,true,false,false⟩]⟩,
        ⟨⟨2,1,1,true,false,false⟩, [], [⟨1,1,1,true,false,false⟩], []⟩],
       [], 1, 1, 0, 0⟩ (by decide)⟩

/-- `removeSuperEdge` leaves the runnable set unchanged. -/
theorem run_removeSuperEdge (m : MeshArea) (p x : QKey) :
    (removeSuperEdge m p x).run = m.run := by
  unfold removeSuperEdge
  rcases h : mesh_area_find m x with _ | xs
  · rfl
  · rfl

/-- `removeSuperEdge` leaves the key list unchanged. -/
theorem keys_removeSuperEdge (m : MeshArea) (p x : QKey) :
    (removeSuperEdge m p x).all.map MState.key = m.all.map MState.key := by
  unfold removeSuperEdge
  rcases h : mesh_area_find m x with _ | xs
  · rfl
  · exact keys_updAt x (fun t => { t with
      superSet := xs.superSet.filter (fun q => decide (q ≠ p)) })
      (fun t => rfl) m.all

/-- Folding `removeSuperEdge` over a list of subs leaves the runnable
set and the key list unchanged. -/
theorem rse_fold_run_keys (k : QKey) (L : List QKey) :
    ∀ m0 : MeshArea,
      (L.foldl (fun acc x => removeSuperEdge acc k x) m0).run = m0.run ∧
      (L.foldl (fun acc x => removeSuperEdge acc k x) m0).all.map MState.key
        = m0.all.map MState.key := by
  induction L with
  | nil => exact fun m0 => ⟨rfl, rfl⟩
  | cons a t ih =>
    intro m0
    rw [List.foldl_cons]
    exact ⟨(ih _).1.trans (run_removeSuperEdge m0 k a),
      (ih _).2.trans (keys_removeSuperEdge m0 k a)⟩

/-- `mesh_detach_subs` leaves the runnable set unchanged. -/
theorem run_detach_subs (m : MeshArea) (k : QKey) :
    (mesh_detach_subs m k).run = m.run := by
  unfold mesh_detach_subs
  rcases h : mesh_area_find m k with _ | s
  · rfl
  · exact (rse_fold_run_keys k s.subSet m).1

/-- `mesh_detach_subs` leaves the key list unchanged. -/
theorem keys_detach_subs (m : MeshArea) (k : QKey) :
    (mesh_detach_subs m k).all.map MState.key = m.all.map MState.key := by
  unfold mesh_detach_subs
  rcases h : mesh_area_find m k with _ | s
  · rfl
  · refine Eq.trans ?_ (rse_fold_run_keys k s.subSet m).2
    exact keys_updAt k (fun t => { t with subSet := [] }) (fun t => rfl) _

/-- Folding `setInsert` over a duplicate-free list appends exactly the
elements not already present, in iteration order. -/
theorem foldl_setInsert (L : List QKey) :
    ∀ base : List QKey, L.Nodup →
      L.foldl (fun r q => setInsert q r) base
        = base ++ L.filter (fun q => decide (q ∉ base)) := by
  induction L with
  | nil =>
    intro base _
    simp
  | cons a t ih =>
    intro base hnd
    obtain ⟨ha, ht⟩ := List.nodup_cons.mp hnd
    rw [List.foldl_cons, ih (setInsert a base) ht]
    by_cases hab : a ∈ base
    · rw [setInsert_of_mem hab, List.filter_cons,
        if_neg (by simp [hab])]
    · have hsib : setInsert a base = base ++ [a] := if_neg hab
      rw [hsib, List.filter_cons, if_pos (by simp [hab]),
        List.append_assoc, List.singleton_append]
      congr 1
      congr 1
      apply List.filter_congr
      intro q hq
      have hqa : q ≠ a := fun he => ha (he ▸ hq)
      simp [List.mem_append, hqa]

/-- The runnable set after `mesh_state_done`: the completed state is
removed and its supers are folded in with `setInsert`, in iteration
order of the super-set. -/
theorem state_done_run (m : MeshArea) (k : QKey) (s : MState)
    (hf : mesh_area_find m k = some s) :
    (mesh_state_done m k).run
      = (s.superSet.foldl (fun r q => setInsert q r)
          (m.run.filter (fun q => decide (q ≠ k)))).filter
          (fun q => decide (q ≠ k)) := by
  unfold mesh_state_done
  rw [hf]
  dsimp only
  generalize hR : (s.superSet.foldl (fun r q => setInsert q r)
      (m.run.filter (fun q => decide (q ≠ k)))) = R
  have hkeysL4 : (s.superSet.foldl (fun l q => updAt q
      (fun t => { t with
        subSet := t.subSet.filter (fun x => decide (x ≠ k)) }) l)
      (mesh_detach_subs { m with run := R } k).all).map MState.key
      = m.all.map MState.key :=
    (wf_drop_sub_fold k s.superSet _).1.trans
      (keys_detach_subs { m with run := R } k)
  generalize hL4 : (s.superSet.foldl (fun l q => updAt q
      (fun t => { t with
        subSet := t.subSet.filter (fun x => decide (x ≠ k)) }) l)
      (mesh_detach_subs { m with run := R } k).all) = L4
  rw [hL4] at hkeysL4
  unfold mesh_delete_drain
  rcases hfind : mesh_area_find
      { mesh_detach_subs { m with run := R } k with all := L4 } k with _ | t
  · exfalso
    have hfind2 : L4.find? (fun u => decide (u.key = k)) = none := hfind
    have hkin : k ∈ L4.map MState.key := by
      rw [hkeysL4]
      exact List.mem_map.mpr ⟨s, List.mem_of_find?_eq_some hf,
        by simpa using List.find?_some hf⟩
    rcases List.mem_map.mp hkin with ⟨t, htmem, htkey⟩
    have hnp := List.find?_eq_none.mp hfind2 t htmem
    simp [htkey] at hnp
  · dsimp only
    rw [run_detach_subs { m with run := R } k]

/-- Counterexample for C2: a concrete completed state U with supers S1
and S2.  Both supers are inserted into the runnable set in super-set
iteration order, but the event they are run with afterwards (per the
`mesh_walk_supers` and `mesh_run` contracts of `mesh.h`) is
`module_event_pass`, not `module_event_moddone` as the spec's
scheduler pseudocode states — even when the triggering event of the
run was `moddone`. -/
theorem c2_counterexample_supers_get_pass_not_moddone :
    (mesh_state_done
      ⟨[⟨⟨1,0,0,false,false,false⟩, [⟨1,0⟩], [], [⟨0,0,0,false,false,false⟩]⟩,
        ⟨⟨2,0,0,false,false,false⟩, [⟨2,0⟩], [], [⟨0,0,0,false,false,false⟩]⟩,
        ⟨⟨0,0,0,false,false,false⟩, [],
          [⟨1,0,0,false,false,false⟩, ⟨2,0,0,false,false,false⟩], []⟩],
       [⟨0,0,0,false,false,false⟩], 2, 2, 0, 0⟩
      ⟨0,0,0,false,false,false⟩).run
      = [⟨1,0,0,false,false,false⟩, ⟨2,0,0,false,false,false⟩]
    ∧ mesh_run_event ⟨0,0,0,false,false,false⟩ ModuleEv.module_event_moddone
        ⟨1,0,0,false,false,false⟩ = ModuleEv.module_event_pass
    ∧ mesh_run_event ⟨0,0,0,false,false,false⟩ ModuleEv.module_event_moddone
        ⟨2,0,0,false,false,false⟩ = ModuleEv.module_event_pass
    ∧ ModuleEv.module_event_pass ≠ ModuleEv.module_event_moddone :=
  ⟨by decide, by decide, by decide, by decide⟩

/-- C2 (amended; modelled from the spec and the documented contracts in
`mesh.h`, `mesh.c` not being in the source tree): when a state
completes, every state of its super-set absent from the runnable set is
inserted into it, in iteration order of the super-set (members already
runnable keep their position); but the supers are subsequently run with
the generic event `module_event_pass` (`mesh.h` lines 256-258 and
341-342), not `module_event_moddone` as the spec's pseudocode says. -/
theorem c2_amended_supers_scheduled_with_pass (m : MeshArea) (k : QKey)
    (s : MState) (ev : ModuleEv)
    (hf : mesh_area_find m k = some s)
    (hnd : s.superSet.Nodup) (hk : k ∉ s.superSet) :
    (mesh_state_done m k).run
      = m.run.filter (fun q => decide (q ≠ k))
        ++ s.superSet.filter (fun q =>
            decide (q ∉ m.run.filter (fun x => decide (x ≠ k))))
    ∧ (∀ q ∈ s.superSet, mesh_run_event k ev q = ModuleEv.module_event_pass)
    ∧ ModuleEv.module_event_pass ≠ ModuleEv.module_event_moddone := by
  refine ⟨?_, ?_, by decide⟩
  · rw [state_done_run m k s hf, foldl_setInsert s.superSet _ hnd,
      List.filter_append]
    have hbase : (m.run.filter (fun q => decide (q ≠ k))).filter
        (fun q => decide (q ≠ k)) = m.run.filter (fun q => decide (q ≠ k)) :=
      List.filter_eq_self.mpr (fun a ha => (List.mem_filter.mp ha).2)
    rw [hbase]
    congr 1
    apply List.filter_eq_self.mpr
    intro a ha
    have hamem : a ∈ s.superSet := (List.mem_filter.mp ha).1
    have hak : a ≠ k := fun he => hk (he ▸ hamem)
    simpa using hak
  · intro q hq
    unfold mesh_run_event
    have hqk : ¬(q = k) := fun he => hk (he ▸ hq)
    rw [if_neg hqk]

/-- Witness for C2's amended theorem: the concrete completed state with
two supers; the runnable set afterwards is exactly the two supers in
order, and each is run with `module_event_pass`. -/
theorem c2_witness :
    mesh_area_find
      ⟨[⟨⟨1,0,0,false,false,false⟩, [⟨1,0⟩], [], [⟨0,0,0,false,false,false⟩]⟩,
        ⟨⟨2,0,0,false,false,false⟩, [⟨2,0⟩], [], [⟨0,0,0,false,false,false⟩]⟩,
        ⟨⟨0,0,0,false,false,false⟩, [],
          [⟨1,0,0,false,false,false⟩, ⟨2,0,0,false,false,false⟩], []⟩],
       [⟨0,0,0,false,false,false⟩], 2, 2, 0, 0⟩
      ⟨0,0,0,false,false,false⟩
    = some ⟨⟨0,0,0,false,false,false⟩, [],
        [⟨1,0,0,false,false,false⟩, ⟨2,0,0,false,false,false⟩], []⟩
    ∧ ([⟨1,0,0,false,false,false⟩,
        (⟨2,0,0,false,false,false⟩ : QKey)]).Nodup
    ∧ (⟨0,0,0,false,false,false⟩ : QKey)
        ∉ [⟨1,0,0,false,false,false⟩, (⟨2,0,0,false,false,false⟩ : QKey)]
    ∧ ((mesh_state_done
        ⟨[⟨⟨1,0,0,false,false,false⟩, [⟨1,0⟩], [],
            [⟨0,0,0,false,false,false⟩]⟩,
          ⟨⟨2,0,0,false,false,false⟩, [⟨2,0⟩], [],
            [⟨0,0,0,false,false,false⟩]⟩,
          ⟨⟨0,0,0,false,false,false⟩, [],
            [⟨1,0,0,false,false,false⟩, ⟨2,0,0,false,false,false⟩], []⟩],
         [⟨0,0,0,false,false,false⟩], 2, 2, 0, 0⟩
        ⟨0,0,0,false,false,false⟩).run
      = ([⟨0,0,0,false,false,false⟩] : List QKey).filter
          (fun q => decide (q ≠ ⟨0,0,0,false,false,false⟩))
        ++ ([⟨1,0,0,false,false,false⟩,
             (⟨2,0,0,false,false,false⟩ : QKey)]).filter (fun q =>
            decide (q ∉ ([⟨0,0,0,false,false,false⟩] : List QKey).filter
              (fun x => decide (x ≠ ⟨0,0,0,false,false,false⟩))))
      ∧ (∀ q ∈ [⟨1,0,0,false,false,false⟩,
            (⟨2,0,0,false,false,false⟩ : QKey)],
          mesh_run_event ⟨0,0,0,false,false,false⟩
            ModuleEv.module_event_moddone q = ModuleEv.module_event_pass)
      ∧ ModuleEv.module_event_pass ≠ ModuleEv.module_event_moddone) :=
  ⟨by decide, by decide, by decide,
    c2_amended_supers_scheduled_with_pass
      ⟨[⟨⟨1,0,0,false,false,false⟩, [⟨1,0⟩], [],
          [⟨0,0,0,false,false,false⟩]⟩,
        ⟨⟨2,0,0,false,false,false⟩, [⟨2,0⟩], [],
          [⟨0,0,0,false,false,false⟩]⟩,
        ⟨⟨0,0,0,false,false,false⟩, [],
          [⟨1,0,0,false,false,false⟩, ⟨2,0,0,false,false,false⟩], []⟩],
       [⟨0,0,0,false,false,false⟩], 2, 2, 0, 0⟩
      ⟨0,0,0,false,false,false⟩
      ⟨⟨0,0,0,false,false,false⟩, [],
        [⟨1,0,0,false,false,false⟩, ⟨2,0,0,false,false,false⟩], []⟩
      ModuleEv.module_event_moddone (by decide) (by decide) (by decide)⟩
